import Mathlib

/-!
Verification of the route reconciliation core of a BIG-IP ingress controller
(pkg/controller/nativeResourceWorker.go and pkg/controller/resourceConfig.go).

The Go code is shallowly embedded: Go maps become association lists with
Go-map lookup/insert semantics (unique keys, lookup by key equality),
`metav1.Time` creation timestamps become `Nat` (with `Time.Before` as `<`),
`int32` ports become `Nat` (no arithmetic is performed on them), and
fallible calls return `Option`.  External collaborators that live outside
the two embedded files (the Kubernetes client, certificate parsing,
informer indexers) are represented by explicit fields on the input data,
with a comment at each such point.
-/

/-- Association-list lookup with Go-map semantics (first match wins; the
lists we build keep keys unique, matching Go maps). -/
def lookupA {α : Type} : List (String × α) → String → Option α
  | [], _ => none
  | (k, v) :: rest, key => if k = key then some v else lookupA rest key

/-- Association-list insert-or-replace, modelling Go `m[k] = v`. -/
def insertA {α : Type} : List (String × α) → String → α → List (String × α)
  | [], k, v => [(k, v)]
  | (k', v') :: rest, k, v =>
    if k' = k then (k, v) :: rest else (k', v') :: insertA rest k v

/-- Association-list erase, modelling Go `delete(m, k)` (all occurrences
of the key go, matching map semantics on the unique-key lists built
here). -/
def eraseA {α : Type} : List (String × α) → String → List (String × α)
  | [], _ => []
  | (k', v') :: rest, k =>
    if k' = k then eraseA rest k else (k', v') :: eraseA rest k

/-- Go compares strings byte-wise lexicographically; on UTF-8 this equals
code-point lexicographic order, embedded as `<` on the character list.
(`String.ltb`, which backs the ambient `<`, is well-founded recursion and
does not evaluate inside the kernel, so executable definitions branch on
this boolean instead.) -/
def strLtB (a b : String) : Bool := decide (a.data < b.data)

theorem strLtB_iff (a b : String) : strLtB a b = true ↔ a < b := by
  unfold strLtB
  rw [decide_eq_true_iff]
  exact (String.lt_iff_toList_lt).symm

/-! ## Extended route-spec data model

`ExtendedRouteGroupSpec`, `extendedParsedSpec` and `extendedSpecMap` are
declared in the repository outside src/ (types file); their fields are
reconstructed from every use in the two embedded files:
`VServerName`, `VServerAddr`, `SNAT`, `WAF`, `IRules`, `AllowSourceRange`,
`TLS{Reference, ClientSSL, ServerSSL}`, `HealthMonitors` and
`Meta.DependsOnTLSCipher` on the group spec, and
`{override, local, global, namespaces, partition}` on the parsed entry. -/

structure ExtdTLS where
  reference : String
  clientSSL : String
  serverSSL : String
deriving DecidableEq

/-- One `healthMonitors[]` entry of the extended spec document
(`path`, `type` (default "http"), `send`, `recv`, `interval`, `timeout`). -/
structure HealthMonitorSpec where
  path : String
  monType : String
  send : String
  recv : String
  interval : Nat
  timeout : Nat
deriving DecidableEq

structure ExtendedRouteGroupSpec where
  vserverName : String
  vserverAddr : String
  snat : String
  waf : String
  iRules : List String
  allowSourceRange : List String
  tls : ExtdTLS
  healthMonitors : List HealthMonitorSpec
  /-- `Meta.DependsOnTLSCipher` read by `getOperationalExtendedConfigMapSpecs`. -/
  metaDependsOnTLSCipher : Bool
deriving DecidableEq

/-- `extendedParsedSpec`: one entry of `ResourceStore.extdSpecMap`.
`global` and `local` are pointers in Go, hence `Option` here;
`override` is used as a plain boolean everywhere in the worker
(the stray pointer dereference in `getExtendedRouteSpec` is embedded as
the boolean value it reads). -/
structure extendedParsedSpec where
  override : Bool
  localSpec : Option ExtendedRouteGroupSpec
  globalSpec : Option ExtendedRouteGroupSpec
  namespaces : List String
  partition : String
deriving DecidableEq

/-- `extendedSpecMap: routeGroupKey -> *extendedParsedSpec`. -/
abbrev extendedSpecMap : Type := List (String × extendedParsedSpec)

/-- `ResourceStore.getExtendedRouteSpec` (resourceConfig.go): the effective
spec of a route group is the local spec when override is allowed and a
local spec exists, else the global spec; `none` when the group is absent. -/
def getExtendedRouteSpec (m : extendedSpecMap) (routeGroup : String) :
    Option ExtendedRouteGroupSpec :=
  match lookupA m routeGroup with
  | none => none
  | some extdSpec =>
    if extdSpec.override ∧ extdSpec.localSpec.isSome then extdSpec.localSpec
    else extdSpec.globalSpec

/-- The effective-spec selection exactly as the spec document words it,
used to compare `getExtendedRouteSpec` against the claimed behaviour. -/
def specSideEffectiveSpec (m : extendedSpecMap) (routeGroup : String) :
    Option ExtendedRouteGroupSpec :=
  match lookupA m routeGroup with
  | none => none
  | some e =>
    match e.localSpec with
    | some l => if e.override then some l else e.globalSpec
    | none => e.globalSpec

/-- C7: For every route group present in the extended-spec map, the
effective spec returned by getExtendedRouteSpec is the local spec exactly
when the override flag is true and the local spec is non-nil, and the
global spec in every other case; for a group absent from the map it
returns nil. -/
theorem getExtendedRouteSpec_override_semantics (m : extendedSpecMap)
    (routeGroup : String) :
    getExtendedRouteSpec m routeGroup = specSideEffectiveSpec m routeGroup := by
  unfold getExtendedRouteSpec specSideEffectiveSpec
  cases h : lookupA m routeGroup with
  | none => rfl
  | some e =>
    cases hl : e.localSpec with
    | none => simp [hl]
    | some l =>
      by_cases ho : e.override
      · simp [hl, ho]
      · simp [hl, ho]

/-! ## Internal data groups (resourceConfig.go)

`InternalDataGroup.Records` is kept as a sorted array; `AddOrUpdateRecord`
and `RemoveRecord` locate the least index `i` with `Records[i].Name >= name`
via `sort.Search` (binary search over a predicate that is monotone on a
sorted array, so it returns the first index satisfying it).  The embedding
computes that same first position by structural recursion along the sorted
list. -/

structure InternalDataGroupRecord where
  name : String
  data : String
deriving DecidableEq

/-- `InternalDataGroup.AddOrUpdateRecord`: returns the new record list and
the boolean result (false iff the name was present with identical data). -/
def addOrUpdateRecord : List InternalDataGroupRecord → String → String →
    List InternalDataGroupRecord × Bool
  | [], n, d => ([⟨n, d⟩], true)
  | r :: rs, n, d =>
    if strLtB r.name n then
      let res := addOrUpdateRecord rs n d
      (r :: res.1, res.2)
    else if r.name = n then
      -- found: update the data when it differs, else report no change
      if r.data = d then (r :: rs, false) else (⟨n, d⟩ :: rs, true)
    else
      -- insert into the correct position
      (⟨n, d⟩ :: r :: rs, true)

/-- `InternalDataGroup.RemoveRecord`: removes the record with the given
name when present, reporting whether a removal happened. -/
def removeRecord : List InternalDataGroupRecord → String →
    List InternalDataGroupRecord × Bool
  | [], _ => ([], false)
  | r :: rs, n =>
    if strLtB r.name n then
      let res := removeRecord rs n
      (r :: res.1, res.2)
    else if r.name = n then (rs, true)
    else (r :: rs, false)

/-- Strictly ascending record names: sortedness plus name uniqueness. -/
abbrev RecordsSorted (l : List InternalDataGroupRecord) : Prop :=
  l.Pairwise (fun a b => strLtB a.name b.name = true)

theorem addOrUpdateRecord_cons (r : InternalDataGroupRecord)
    (rs : List InternalDataGroupRecord) (n d : String) :
    addOrUpdateRecord (r :: rs) n d =
      if strLtB r.name n then
        (r :: (addOrUpdateRecord rs n d).1, (addOrUpdateRecord rs n d).2)
      else if r.name = n then
        (if r.data = d then (r :: rs, false) else (⟨n, d⟩ :: rs, true))
      else (⟨n, d⟩ :: r :: rs, true) := rfl

theorem removeRecord_cons (r : InternalDataGroupRecord)
    (rs : List InternalDataGroupRecord) (n : String) :
    removeRecord (r :: rs) n =
      if strLtB r.name n then (r :: (removeRecord rs n).1, (removeRecord rs n).2)
      else if r.name = n then (rs, true)
      else (r :: rs, false) := rfl

theorem addOrUpdateRecord_mem_name {l : List InternalDataGroupRecord}
    {n d : String} {r : InternalDataGroupRecord}
    (h : r ∈ (addOrUpdateRecord l n d).1) : r ∈ l ∨ r.name = n := by
  induction l with
  | nil =>
    have hh : (addOrUpdateRecord [] n d).1 = [⟨n, d⟩] := rfl
    rw [hh, List.mem_singleton] at h
    right; rw [h]
  | cons hd tl ih =>
    rw [addOrUpdateRecord_cons] at h
    by_cases h1 : strLtB hd.name n = true
    · rw [if_pos h1] at h
      rcases List.mem_cons.mp h with h | h
      · left; rw [h]; exact List.mem_cons_self _ _
      · rcases ih h with h' | h'
        · left; exact List.mem_cons_of_mem _ h'
        · right; exact h'
    · rw [if_neg h1] at h
      by_cases h2 : hd.name = n
      · rw [if_pos h2] at h
        by_cases h3 : hd.data = d
        · rw [if_pos h3] at h; left; exact h
        · rw [if_neg h3] at h
          rcases List.mem_cons.mp h with h | h
          · right; rw [h]
          · left; exact List.mem_cons_of_mem _ h
      · rw [if_neg h2] at h
        rcases List.mem_cons.mp h with h | h
        · right; rw [h]
        · left; exact h

theorem addOrUpdateRecord_sorted {l : List InternalDataGroupRecord}
    (hs : RecordsSorted l) (n d : String) :
    RecordsSorted (addOrUpdateRecord l n d).1 := by
  induction l with
  | nil =>
    have hh : (addOrUpdateRecord [] n d).1 = [⟨n, d⟩] := rfl
    rw [hh]; simp
  | cons hd tl ih =>
    have hhd := (List.pairwise_cons.mp hs).1
    have htl := (List.pairwise_cons.mp hs).2
    rw [addOrUpdateRecord_cons]
    by_cases h1 : strLtB hd.name n = true
    · rw [if_pos h1]
      refine List.pairwise_cons.mpr ⟨?_, ih htl⟩
      intro r hr
      rcases addOrUpdateRecord_mem_name hr with h | h
      · exact hhd r h
      · rw [h]; exact h1
    · rw [if_neg h1]
      have h1' : ¬ hd.name < n := fun hlt => h1 ((strLtB_iff _ _).mpr hlt)
      by_cases h2 : hd.name = n
      · rw [if_pos h2]
        by_cases h3 : hd.data = d
        · rw [if_pos h3]; exact hs
        · rw [if_neg h3]
          refine List.pairwise_cons.mpr ⟨?_, htl⟩
          intro r hr
          have := hhd r hr
          rw [h2] at this
          exact this
      · rw [if_neg h2]
        have hlt : n < hd.name :=
          lt_of_le_of_ne (not_lt.mp h1') (fun e => h2 e.symm)
        refine List.pairwise_cons.mpr ⟨?_, hs⟩
        intro r hr
        rcases List.mem_cons.mp hr with h | h
        · rw [h]; exact (strLtB_iff _ _).mpr hlt
        · refine (strLtB_iff _ _).mpr (lt_trans hlt ?_)
          exact (strLtB_iff _ _).mp (hhd r h)

theorem removeRecord_sublist (l : List InternalDataGroupRecord) (n : String) :
    (removeRecord l n).1.Sublist l := by
  induction l with
  | nil => simp [removeRecord]
  | cons hd tl ih =>
    rw [removeRecord_cons]
    by_cases h1 : strLtB hd.name n = true
    · rw [if_pos h1]; exact List.Sublist.cons₂ hd ih
    · rw [if_neg h1]
      by_cases h2 : hd.name = n
      · rw [if_pos h2]; exact List.sublist_cons_self hd tl
      · rw [if_neg h2]

theorem removeRecord_sorted {l : List InternalDataGroupRecord}
    (hs : RecordsSorted l) (n : String) :
    RecordsSorted (removeRecord l n).1 :=
  List.Pairwise.sublist (removeRecord_sublist l n) hs

theorem addOrUpdateRecord_false_iff {l : List InternalDataGroupRecord}
    (hs : RecordsSorted l) (n d : String) :
    ((addOrUpdateRecord l n d).2 = false
        ↔ (⟨n, d⟩ : InternalDataGroupRecord) ∈ l)
      ∧ ((addOrUpdateRecord l n d).2 = false → (addOrUpdateRecord l n d).1 = l) := by
  induction l with
  | nil =>
    have hh : (addOrUpdateRecord ([] : List InternalDataGroupRecord) n d).2 = true := rfl
    constructor
    · rw [hh]; simp
    · rw [hh]; simp
  | cons hd tl ih =>
    have hhd := (List.pairwise_cons.mp hs).1
    have htl := (List.pairwise_cons.mp hs).2
    have ihtl := ih htl
    by_cases h1 : strLtB hd.name n = true
    · have h1lt : hd.name < n := (strLtB_iff _ _).mp h1
      constructor
      · rw [addOrUpdateRecord_cons, if_pos h1]
        dsimp only
        rw [ihtl.1]
        constructor
        · intro h; exact List.mem_cons_of_mem _ h
        · intro h
          rcases List.mem_cons.mp h with h | h
          · exfalso
            have he : hd.name = n := by rw [← h]
            exact absurd he (ne_of_lt h1lt)
          · exact h
      · intro h
        rw [addOrUpdateRecord_cons, if_pos h1] at h ⊢
        dsimp only at h ⊢
        rw [ihtl.2 h]
    · have h1' : ¬ hd.name < n := fun hlt => h1 ((strLtB_iff _ _).mpr hlt)
      by_cases h2 : hd.name = n
      · by_cases h3 : hd.data = d
        · have hd_eq : hd = ⟨n, d⟩ := by cases hd; simp_all
          constructor
          · rw [addOrUpdateRecord_cons, if_neg h1, if_pos h2, if_pos h3]
            simp [hd_eq]
          · intro _
            rw [addOrUpdateRecord_cons, if_neg h1, if_pos h2, if_pos h3]
        · constructor
          · rw [addOrUpdateRecord_cons, if_neg h1, if_pos h2, if_neg h3]
            dsimp only
            constructor
            · intro h; cases h
            · intro h
              rcases List.mem_cons.mp h with h | h
              · exfalso
                have : hd.data = d := by rw [← h]
                exact h3 this
              · exfalso
                have := (strLtB_iff _ _).mp (hhd _ h)
                rw [h2] at this
                exact absurd this (lt_irrefl n)
          · intro h
            rw [addOrUpdateRecord_cons, if_neg h1, if_pos h2, if_neg h3] at h
            cases h
      · constructor
        · rw [addOrUpdateRecord_cons, if_neg h1, if_neg h2]
          dsimp only
          constructor
          · intro h; cases h
          · intro h
            rcases List.mem_cons.mp h with h | h
            · exfalso
              have : hd.name = n := by rw [← h]
              exact h2 this
            · exfalso
              exact h1' ((strLtB_iff _ _).mp (hhd _ h))
        · intro h
          rw [addOrUpdateRecord_cons, if_neg h1, if_neg h2] at h
          cases h

/-- C10: The records of an InternalDataGroup stay strictly sorted by name
(hence no two records share a name) across AddOrUpdateRecord and
RemoveRecord, and AddOrUpdateRecord returns false exactly when a record
with the given name and identical data is already present, leaving the
records unchanged in that case. -/
theorem internalDataGroup_sorted_invariant (l : List InternalDataGroupRecord)
    (n d m : String) (hs : RecordsSorted l) :
    RecordsSorted (addOrUpdateRecord l n d).1
      ∧ RecordsSorted (removeRecord l m).1
      ∧ ((addOrUpdateRecord l n d).2 = false
          ↔ (⟨n, d⟩ : InternalDataGroupRecord) ∈ l)
      ∧ ((addOrUpdateRecord l n d).2 = false → (addOrUpdateRecord l n d).1 = l) :=
  ⟨addOrUpdateRecord_sorted hs n d, removeRecord_sorted hs m,
    (addOrUpdateRecord_false_iff hs n d).1, (addOrUpdateRecord_false_iff hs n d).2⟩

/-- Witness for C10 at a concrete sorted record list. -/
theorem internalDataGroup_sorted_invariant_witness :
    RecordsSorted [(⟨"a", "1"⟩ : InternalDataGroupRecord), ⟨"c", "2"⟩]
      ∧ (RecordsSorted (addOrUpdateRecord [(⟨"a", "1"⟩ : InternalDataGroupRecord), ⟨"c", "2"⟩] "b" "3").1
          ∧ RecordsSorted (removeRecord [(⟨"a", "1"⟩ : InternalDataGroupRecord), ⟨"c", "2"⟩] "c").1
          ∧ ((addOrUpdateRecord [(⟨"a", "1"⟩ : InternalDataGroupRecord), ⟨"c", "2"⟩] "b" "3").2 = false
              ↔ (⟨"b", "3"⟩ : InternalDataGroupRecord)
                  ∈ [(⟨"a", "1"⟩ : InternalDataGroupRecord), ⟨"c", "2"⟩])
          ∧ ((addOrUpdateRecord [(⟨"a", "1"⟩ : InternalDataGroupRecord), ⟨"c", "2"⟩] "b" "3").2 = false
              → (addOrUpdateRecord [(⟨"a", "1"⟩ : InternalDataGroupRecord), ⟨"c", "2"⟩] "b" "3").1
                  = [(⟨"a", "1"⟩ : InternalDataGroupRecord), ⟨"c", "2"⟩])) :=
  ⟨by decide, internalDataGroup_sorted_invariant _ "b" "3" "c" (by decide)⟩

/-! ## Routes

`routeapi.Route` as used by the worker: `Spec.Host`, `Spec.Path`,
`Spec.To.Name`, `Spec.AlternateBackends`, `Spec.TLS` (termination,
insecure-traffic policy, inline credential material) and the creation
timestamp.  Outcomes of external collaborators consulted while
validating a route are carried as fields:
`svcFound`/`svcPort` for `getServicePort` (service lookup through the
informer), `certHostValid` for `checkCertificateHost` (certificate
parsing, outside src/), and `rewriteInvalid` for `getRewriteActions`
(outside src/; per the spec an invalid rewrite/path combination is an
error). -/

structure RouteTLS where
  termination : String
  insecurePolicy : String
  key : String
  certificate : String
  caCertificate : String
  destinationCACertificate : String
deriving DecidableEq

structure Route where
  name : String
  ns : String
  host : String
  path : String
  creationTimestamp : Nat
  tls : Option RouteTLS
  toName : String
  alternateBackends : List String
  balance : String
  svcFound : Bool
  svcPort : Nat
  certHostValid : Bool
  urlRewrite : Option String
  rewriteInvalid : Bool
  /-- Modelled from the spec: success of the external TLS-material
  resolution (secret fetch and SSL-profile synthesis) for this route's
  credentials. -/
  profileCreateOk : Bool
deriving DecidableEq

theorem stringLength_zero_iff (s : String) : s.length = 0 ↔ s = "" := by
  constructor
  · intro h
    cases s with
    | mk d =>
      cases d with
      | nil => rfl
      | cons c cs => simp [String.length] at h
  · intro h; rw [h]; rfl

/-- The comparison closure passed to `sort.Slice` in `getOrderedRoutes`. -/
def routeSortLess (a b : Route) : Bool :=
  if a.host = b.host
      ∧ ((a.path.length = 0 ∨ b.path.length = 0) ∧ (a.path = "/" ∨ b.path = "/")) then
    decide (a.creationTimestamp < b.creationTimestamp)
  else
    strLtB a.host b.host
      || (decide (a.host = b.host) && decide (a.path = b.path)
            && decide (a.creationTimestamp < b.creationTimestamp))
      || (decide (a.host = b.host) && strLtB a.path b.path)

/-- The route ordering exactly as the spec document words it: host
ascending; for an equal host, creation time ascending whenever either
path is empty or root, otherwise path ascending with creation time as
the tie-break on equal paths. -/
def specRouteLess (a b : Route) : Bool :=
  if a.host = b.host then
    if (a.path = "" ∨ a.path = "/") ∨ (b.path = "" ∨ b.path = "/") then
      decide (a.creationTimestamp < b.creationTimestamp)
    else
      strLtB a.path b.path
        || (decide (a.path = b.path) && decide (a.creationTimestamp < b.creationTimestamp))
  else strLtB a.host b.host

/-- What the source comparison actually implements: creation time decides
only when the two paths are equal, or when one is empty and the other is
exactly "/"; every other pair of paths is compared lexicographically. -/
def amendedRouteLess (a b : Route) : Bool :=
  if a.host = b.host then
    if (a.path = "" ∧ b.path = "/") ∨ (a.path = "/" ∧ b.path = "") ∨ a.path = b.path then
      decide (a.creationTimestamp < b.creationTimestamp)
    else strLtB a.path b.path
  else strLtB a.host b.host

/-- `getOrderedRoutes`: the informer list for the namespace (every cached
route when the namespace is empty), ordered by `sort.Slice` with
`routeSortLess`; `sort.Slice` is embedded as a comparison sort driven by
the same closure. -/
def getOrderedRoutes (ns : String) (allRoutes : List Route) : List Route :=
  let resources := if ns = "" then allRoutes else allRoutes.filter (fun r => r.ns = ns)
  List.insertionSort (fun a b => routeSortLess a b = true) resources

theorem strLtB_irrefl (a : String) : strLtB a a = false := by
  cases h : strLtB a a
  · rfl
  · exact absurd ((strLtB_iff a a).mp h) (lt_irrefl a)

theorem routeSortLess_eq_amended (a b : Route) :
    routeSortLess a b = amendedRouteLess a b := by
  unfold routeSortLess amendedRouteLess
  by_cases hh : a.host = b.host
  · by_cases hpq : a.path = b.path
    · rw [if_pos hh, if_pos (Or.inr (Or.inr hpq))]
      by_cases hc : a.host = b.host
          ∧ ((a.path.length = 0 ∨ b.path.length = 0) ∧ (a.path = "/" ∨ b.path = "/"))
      · rw [if_pos hc]
      · rw [if_neg hc]
        simp [hh, hpq, strLtB_irrefl]
    · by_cases hpair : (a.path = "" ∧ b.path = "/") ∨ (a.path = "/" ∧ b.path = "")
      · have hc : a.host = b.host
            ∧ ((a.path.length = 0 ∨ b.path.length = 0) ∧ (a.path = "/" ∨ b.path = "/")) := by
          rcases hpair with ⟨hP, hQ⟩ | ⟨hP, hQ⟩
          · exact ⟨hh, Or.inl (by rw [hP]; rfl), Or.inr hQ⟩
          · exact ⟨hh, Or.inr (by rw [hQ]; rfl), Or.inl hP⟩
        have hcond : (a.path = "" ∧ b.path = "/") ∨ (a.path = "/" ∧ b.path = "")
            ∨ a.path = b.path := by
          rcases hpair with h | h
          · exact Or.inl h
          · exact Or.inr (Or.inl h)
        rw [if_pos hc, if_pos hh, if_pos hcond]
      · have hemp : ("" : String) ≠ "/" := by decide
        have hc : ¬ (a.host = b.host
            ∧ ((a.path.length = 0 ∨ b.path.length = 0) ∧ (a.path = "/" ∨ b.path = "/"))) := by
          rintro ⟨-, hlen, hslash⟩
          rcases hlen with hlen | hlen
          · have hP : a.path = "" := (stringLength_zero_iff _).mp hlen
            rcases hslash with hs | hs
            · exact hemp (hP ▸ hs)
            · exact hpair (Or.inl ⟨hP, hs⟩)
          · have hQ : b.path = "" := (stringLength_zero_iff _).mp hlen
            rcases hslash with hs | hs
            · exact hpair (Or.inr ⟨hs, hQ⟩)
            · exact hemp (hQ ▸ hs)
        have hcond : ¬ ((a.path = "" ∧ b.path = "/") ∨ (a.path = "/" ∧ b.path = "")
            ∨ a.path = b.path) := by
          rintro (h | h | h)
          · exact hpair (Or.inl h)
          · exact hpair (Or.inr h)
          · exact hpq h
        rw [if_neg hc, if_pos hh, if_neg hcond]
        simp [hh, hpq, strLtB_irrefl]
  · have hc : ¬ (a.host = b.host
        ∧ ((a.path.length = 0 ∨ b.path.length = 0) ∧ (a.path = "/" ∨ b.path = "/"))) := by
      rintro ⟨h, -⟩; exact hh h
    rw [if_neg hc, if_neg hh]
    simp [hh]

/-- A route with neutral validation fields, for concrete instances. -/
def mkRoute (ns host path : String) (ts : Nat) : Route :=
  { name := host ++ path
    ns := ns
    host := host
    path := path
    creationTimestamp := ts
    tls := none
    toName := "svc"
    alternateBackends := []
    balance := ""
    svcFound := true
    svcPort := 80
    certHostValid := true
    urlRewrite := none
    rewriteInvalid := false
    profileCreateOk := true }

/-- C8 counterexample: two routes with the same host, one with an empty
path (timestamp 10) and one with path "/abc" (timestamp 1).  The claim
orders them by creation time (path-"/abc" route first, since one path is
empty), but the source comparison only takes the creation-time branch
when one path is empty AND the other is exactly "/", so it orders by
path and returns the empty-path route first. -/
theorem getOrderedRoutes_root_path_order_mismatch :
    getOrderedRoutes "" [mkRoute "n1" "site.com" "" 10, mkRoute "n1" "site.com" "/abc" 1]
        = [mkRoute "n1" "site.com" "" 10, mkRoute "n1" "site.com" "/abc" 1]
      ∧ specRouteLess (mkRoute "n1" "site.com" "/abc" 1) (mkRoute "n1" "site.com" "" 10) = true
      ∧ specRouteLess (mkRoute "n1" "site.com" "" 10) (mkRoute "n1" "site.com" "/abc" 1) = false := by
  refine ⟨?_, by decide, by decide⟩
  decide

/-- C8 amended: getOrderedRoutes permutes the routes of the namespace
(all namespaces when the argument is empty) into the order of the source
comparison, and that comparison orders an equal-host pair by creation
time exactly when the two paths are equal or when one is empty and the
other is exactly "/" (not whenever either path is empty or root, as
claimed); all other path pairs are ordered lexicographically. -/
theorem getOrderedRoutes_order_characterization :
    (∀ a b : Route, routeSortLess a b = amendedRouteLess a b)
      ∧ ∀ (ns : String) (rts : List Route),
          (getOrderedRoutes ns rts).Perm
            (if ns = "" then rts else rts.filter (fun r => r.ns = ns)) := by
  refine ⟨routeSortLess_eq_amended, ?_⟩
  intro ns rts
  unfold getOrderedRoutes
  by_cases h : ns = ""
  · rw [if_pos h]
    simpa [h] using List.perm_insertionSort (fun a b => routeSortLess a b = true) rts
  · rw [if_neg h]
    simpa [h] using
      List.perm_insertionSort (fun a b => routeSortLess a b = true)
        (rts.filter (fun r => r.ns = ns))

/-! ## Host-path claims (nativeResourceWorker.go)

`checkValidRoute` first consults `processedHostPathMap` (rejecting with
`HostAlreadyClaimed` when a strictly older route holds the key), then runs
the extended-TLS / certificate / service validations; `updateHostPathMap`
records an accepted route's claim after evicting entries that carry the
same creation timestamp under a different key.  `getGroupedRoutes` runs
`checkValidRoute` over the ordered routes and `updateHostPathMap` for each
accepted one; `resolveRoutes` is that loop, keeping the rejection reason
next to each route. -/

def routeClaimKey (r : Route) : String :=
  if r.path = "/" ∨ r.path.length = 0 then r.host ++ "/" else r.host ++ r.path

/-- `route.Spec.TLS.Termination`, read as "" when the TLS block is absent.
(In the BigIP branch the Go code dereferences `Spec.TLS` without a nil
check; a nil TLS block under a BigIP-referencing extended spec would
panic there, a corner no theorem below relies on.) -/
def routeTermination (r : Route) : String :=
  match r.tls with
  | some t => t.termination
  | none => ""

/-- The validations of `checkValidRoute` that follow the host-path-claim
check: BigIP-referenced profile checks, certificate-host validation
(`checkCertificateHost`, outside src/, carried as `certHostValid`), and
backend-service resolution (`getServicePort` through the informer,
carried as `svcFound`). -/
def routeAuxReject (extd : ExtendedRouteGroupSpec) (r : Route) : Option String :=
  if extd.tls ≠ (⟨"", "", ""⟩ : ExtdTLS) ∧ extd.tls.reference = "bigip"
      ∧ routeTermination r ≠ "passthrough" then
    if extd.tls.clientSSL = "" then some "ExtendedValidationFailed"
    else if extd.tls.serverSSL = "" ∧ routeTermination r = "reencrypt" then
      some "ExtendedValidationFailed"
    else if ¬ r.svcFound then some "ServiceNotFound" else none
  else if r.tls.isSome ∧ routeTermination r ≠ "passthrough" then
    if ¬ r.certHostValid then some "ExtendedValidationFailed"
    else if ¬ r.svcFound then some "ServiceNotFound" else none
  else if ¬ r.svcFound then some "ServiceNotFound" else none

/-- `checkValidRoute`, with the rejection reason in place of the status
write-back goroutine (`none` = accepted). -/
def checkValidRoute (m : List (String × Nat)) (extd : ExtendedRouteGroupSpec)
    (r : Route) : Option String :=
  match lookupA m (routeClaimKey r) with
  | some processedRouteTimestamp =>
    if processedRouteTimestamp < r.creationTimestamp then some "HostAlreadyClaimed"
    else routeAuxReject extd r
  | none => routeAuxReject extd r

/-- `updateHostPathMap`: evict entries holding the same timestamp under a
different key (a route whose path changed), then record `key ↦ timestamp`. -/
def updateHostPathMap (m : List (String × Nat)) (timestamp : Nat) (key : String) :
    List (String × Nat) :=
  insertA (m.filter (fun p => if p.2 = timestamp ∧ p.1 ≠ key then false else true))
    key timestamp

/-- The accepted-route loop of `getGroupedRoutes`: `checkValidRoute` on
each ordered route, `updateHostPathMap` on acceptance; returns each route
with its outcome, plus the final host-path map. -/
def resolveRoutes (extd : ExtendedRouteGroupSpec) :
    List Route → List (String × Nat) → List (Route × Option String) × List (String × Nat)
  | [], m => ([], m)
  | r :: rs, m =>
    match checkValidRoute m extd r with
    | none =>
      let m1 := updateHostPathMap m r.creationTimestamp (routeClaimKey r)
      let res := resolveRoutes extd rs m1
      ((r, none) :: res.1, res.2)
    | some reason =>
      let res := resolveRoutes extd rs m
      ((r, some reason) :: res.1, res.2)

theorem lookupA_insertA {α : Type} (m : List (String × α)) (key k : String) (v : α) :
    lookupA (insertA m key v) k = if key = k then some v else lookupA m k := by
  induction m with
  | nil =>
    by_cases h : key = k
    · simp [insertA, lookupA, h]
    · simp [insertA, lookupA, h]
  | cons e rest ih =>
    obtain ⟨k', v'⟩ := e
    by_cases h1 : k' = key
    · by_cases h2 : key = k
      · simp [insertA, lookupA, h1, h2]
      · have h3 : ¬ k' = k := fun e => h2 (h1 ▸ e)
        simp [insertA, lookupA, h1, h2, h3]
    · by_cases h2 : k' = k
      · have h3 : ¬ key = k := fun e => h1 (e ▸ h2.symm).symm
        have h4 : ¬ k = key := fun e => h3 e.symm
        simp [insertA, lookupA, h1, h2, h3, h4]
      · simp [insertA, lookupA, h1, h2, ih]

theorem lookupA_filter_none {α : Type} {m : List (String × α)}
    (f : String × α → Bool) {k : String} (h : lookupA m k = none) :
    lookupA (m.filter f) k = none := by
  induction m with
  | nil => simp [lookupA]
  | cons e rest ih =>
    obtain ⟨k', v'⟩ := e
    by_cases h1 : k' = k
    · rw [lookupA, if_pos h1] at h
      cases h
    · rw [lookupA, if_neg h1] at h
      rw [List.filter_cons]
      by_cases hf : f (k', v') = true
      · rw [if_pos hf, lookupA, if_neg h1]
        exact ih h
      · rw [if_neg hf]
        exact ih h

theorem lookupA_filter_kept {α : Type} {m : List (String × α)}
    {f : String × α → Bool} {k : String} {v : α}
    (h : lookupA m k = some v) (hf : f (k, v) = true) :
    lookupA (m.filter f) k = some v := by
  induction m with
  | nil => cases h
  | cons e rest ih =>
    obtain ⟨k', v'⟩ := e
    by_cases h1 : k' = k
    · rw [lookupA, if_pos h1] at h
      have hv : v' = v := by injection h
      subst hv
      subst h1
      rw [List.filter_cons, if_pos hf, lookupA, if_pos rfl]
    · rw [lookupA, if_neg h1] at h
      rw [List.filter_cons]
      by_cases hfe : f (k', v') = true
      · rw [if_pos hfe, lookupA, if_neg h1]
        exact ih h
      · rw [if_neg hfe]
        exact ih h

theorem lookupA_update_self (m : List (String × Nat)) (ts : Nat) (key : String) :
    lookupA (updateHostPathMap m ts key) key = some ts := by
  unfold updateHostPathMap
  rw [lookupA_insertA, if_pos rfl]

theorem lookupA_update_other_none {m : List (String × Nat)} {ts : Nat}
    {key k : String} (hk : ¬ key = k) (h : lookupA m k = none) :
    lookupA (updateHostPathMap m ts key) k = none := by
  unfold updateHostPathMap
  rw [lookupA_insertA, if_neg hk]
  exact lookupA_filter_none _ h

theorem lookupA_update_other_kept {m : List (String × Nat)} {ts t0 : Nat}
    {key k : String} (hk : ¬ key = k) (h : lookupA m k = some t0)
    (hne : ¬ t0 = ts) :
    lookupA (updateHostPathMap m ts key) k = some t0 := by
  unfold updateHostPathMap
  rw [lookupA_insertA, if_neg hk]
  refine lookupA_filter_kept h ?_
  simp [hne]

theorem resolveRoutes_cons_accept {extd : ExtendedRouteGroupSpec}
    {m : List (String × Nat)} {r : Route} {rs : List Route}
    (h : checkValidRoute m extd r = none) :
    resolveRoutes extd (r :: rs) m =
      ((r, none) ::
          (resolveRoutes extd rs
            (updateHostPathMap m r.creationTimestamp (routeClaimKey r))).1,
        (resolveRoutes extd rs
          (updateHostPathMap m r.creationTimestamp (routeClaimKey r))).2) := by
  conv_lhs => rw [resolveRoutes]
  rw [h]

theorem resolveRoutes_cons_reject {extd : ExtendedRouteGroupSpec}
    {m : List (String × Nat)} {r : Route} {rs : List Route} {reason : String}
    (h : checkValidRoute m extd r = some reason) :
    resolveRoutes extd (r :: rs) m =
      ((r, some reason) :: (resolveRoutes extd rs m).1,
        (resolveRoutes extd rs m).2) := by
  conv_lhs => rw [resolveRoutes]
  rw [h]

theorem filterPairs_cons_key {k : String} {r : Route} {o : Option String}
    {l : List (Route × Option String)} (hk : routeClaimKey r = k) :
    ((r, o) :: l).filter (fun p : Route × Option String => decide (routeClaimKey p.1 = k))
      = (r, o) :: l.filter (fun p : Route × Option String => decide (routeClaimKey p.1 = k)) := by
  simp [List.filter_cons, hk]

theorem filterPairs_cons_nonkey {k : String} {r : Route} {o : Option String}
    {l : List (Route × Option String)} (hk : ¬ routeClaimKey r = k) :
    ((r, o) :: l).filter (fun p : Route × Option String => decide (routeClaimKey p.1 = k))
      = l.filter (fun p : Route × Option String => decide (routeClaimKey p.1 = k)) := by
  simp [List.filter_cons, hk]

theorem filterRoutes_cons_key {k : String} {r : Route} {l : List Route}
    (hk : routeClaimKey r = k) :
    (r :: l).filter (fun r' : Route => decide (routeClaimKey r' = k))
      = r :: l.filter (fun r' : Route => decide (routeClaimKey r' = k)) := by
  simp [List.filter_cons, hk]

theorem filterRoutes_cons_nonkey {k : String} {r : Route} {l : List Route}
    (hk : ¬ routeClaimKey r = k) :
    (r :: l).filter (fun r' : Route => decide (routeClaimKey r' = k))
      = l.filter (fun r' : Route => decide (routeClaimKey r' = k)) := by
  simp [List.filter_cons, hk]

/-- Once a key is claimed at timestamp `t0`, every later route with that
key is rejected with `HostAlreadyClaimed`, provided all remaining routes
with the key are strictly younger and no remaining route shares `t0` (the
eviction inside `updateHostPathMap` never touches the claim). -/
theorem resolveRoutes_phase2 (extd : ExtendedRouteGroupSpec) (k : String) (t0 : Nat) :
    ∀ (rs : List Route) (m : List (String × Nat)),
      lookupA m k = some t0 →
      (∀ r ∈ rs, routeClaimKey r = k → t0 < r.creationTimestamp) →
      (∀ r ∈ rs, ¬ t0 = r.creationTimestamp) →
      ((resolveRoutes extd rs m).1.filter (fun p => decide (routeClaimKey p.1 = k)))
        = (rs.filter (fun r => decide (routeClaimKey r = k))).map
            (fun r => (r, some "HostAlreadyClaimed")) := by
  intro rs
  induction rs with
  | nil =>
    intro m _ _ _
    simp [resolveRoutes]
  | cons r rs ih =>
    intro m hm hlt hne
    by_cases hk : routeClaimKey r = k
    · have hl : lookupA m (routeClaimKey r) = some t0 := by rw [hk]; exact hm
      have hcheck : checkValidRoute m extd r = some "HostAlreadyClaimed" := by
        unfold checkValidRoute
        rw [hl]
        show (if t0 < r.creationTimestamp then some "HostAlreadyClaimed"
            else routeAuxReject extd r) = some "HostAlreadyClaimed"
        rw [if_pos (hlt r (List.mem_cons_self r rs) hk)]
      rw [resolveRoutes_cons_reject hcheck]
      dsimp only
      rw [filterPairs_cons_key hk, filterRoutes_cons_key hk, List.map_cons]
      rw [ih m hm
        (fun r' h' => hlt r' (List.mem_cons_of_mem _ h'))
        (fun r' h' => hne r' (List.mem_cons_of_mem _ h'))]
    · cases hcheck : checkValidRoute m extd r with
      | some reason =>
        rw [resolveRoutes_cons_reject hcheck]
        dsimp only
        rw [filterPairs_cons_nonkey hk, filterRoutes_cons_nonkey hk]
        exact ih m hm
          (fun r' h' => hlt r' (List.mem_cons_of_mem _ h'))
          (fun r' h' => hne r' (List.mem_cons_of_mem _ h'))
      | none =>
        rw [resolveRoutes_cons_accept hcheck]
        dsimp only
        rw [filterPairs_cons_nonkey hk, filterRoutes_cons_nonkey hk]
        have hm1 : lookupA
            (updateHostPathMap m r.creationTimestamp (routeClaimKey r)) k = some t0 :=
          lookupA_update_other_kept hk hm (hne r (List.mem_cons_self r rs))
        exact ih _ hm1
          (fun r' h' => hlt r' (List.mem_cons_of_mem _ h'))
          (fun r' h' => hne r' (List.mem_cons_of_mem _ h'))

/-- Before the key is claimed, non-key routes leave the key untouched;
the first route carrying the key is accepted and the loop enters the
claimed phase. -/
theorem resolveRoutes_phase1 (extd : ExtendedRouteGroupSpec) (k : String)
    (r0 : Route) (rest : List Route) :
    ∀ (rs : List Route) (m : List (String × Nat)),
      lookupA m k = none →
      (∀ r ∈ rs, routeAuxReject extd r = none) →
      rs.filter (fun r => decide (routeClaimKey r = k)) = r0 :: rest →
      (rs.map Route.creationTimestamp).Pairwise (fun a b => ¬ a = b) →
      (∀ r ∈ rest, r0.creationTimestamp < r.creationTimestamp) →
      ((resolveRoutes extd rs m).1.filter (fun p => decide (routeClaimKey p.1 = k)))
        = (r0, none) :: rest.map (fun r => (r, some "HostAlreadyClaimed")) := by
  intro rs
  induction rs with
  | nil =>
    intro m _ _ hf _ _
    simp at hf
  | cons r rs ih =>
    intro m hm haux hf hpw hlt
    have hpwr : (r :: rs).Pairwise
        (fun a b : Route => ¬ a.creationTimestamp = b.creationTimestamp) :=
      List.pairwise_map.mp hpw
    have hpwtail : (rs.map Route.creationTimestamp).Pairwise (fun a b => ¬ a = b) := by
      rw [List.pairwise_map]
      exact (List.pairwise_cons.mp hpwr).2
    by_cases hk : routeClaimKey r = k
    · rw [filterRoutes_cons_key hk] at hf
      injection hf with hr0 hrest
      have hl : lookupA m (routeClaimKey r) = none := by rw [hk]; exact hm
      have hcheck : checkValidRoute m extd r = none := by
        unfold checkValidRoute
        rw [hl]
        exact haux r (List.mem_cons_self r rs)
      rw [resolveRoutes_cons_accept hcheck]
      dsimp only
      have hm1 : lookupA
          (updateHostPathMap m r.creationTimestamp (routeClaimKey r)) k
            = some r.creationTimestamp := by
        rw [hk]
        exact lookupA_update_self m r.creationTimestamp k
      have hlt2 : ∀ r' ∈ rs, routeClaimKey r' = k →
          r.creationTimestamp < r'.creationTimestamp := by
        intro r' h' hk'
        have hmem : r' ∈ rest := by
          rw [← hrest]
          exact List.mem_filter.mpr ⟨h', by simp [hk']⟩
        rw [hr0]
        exact hlt r' hmem
      have hne2 : ∀ r' ∈ rs, ¬ r.creationTimestamp = r'.creationTimestamp :=
        fun r' h' => (List.pairwise_cons.mp hpwr).1 r' h'
      have htail := resolveRoutes_phase2 extd k r.creationTimestamp rs _ hm1 hlt2 hne2
      rw [filterPairs_cons_key hk, htail, hrest, hr0]
    · rw [filterRoutes_cons_nonkey hk] at hf
      cases hcheck : checkValidRoute m extd r with
      | some reason =>
        rw [resolveRoutes_cons_reject hcheck]
        dsimp only
        rw [filterPairs_cons_nonkey hk]
        exact ih m hm (fun r' h' => haux r' (List.mem_cons_of_mem _ h')) hf hpwtail hlt
      | none =>
        rw [resolveRoutes_cons_accept hcheck]
        dsimp only
        rw [filterPairs_cons_nonkey hk]
        have hm1 : lookupA
            (updateHostPathMap m r.creationTimestamp (routeClaimKey r)) k = none :=
          lookupA_update_other_none hk hm
        exact ih _ hm1 (fun r' h' => haux r' (List.mem_cons_of_mem _ h')) hf hpwtail hlt

/-- C1: Over the ordered routes of a resolution pass (same-key routes in
ascending creation order, creation timestamps pairwise distinct, every
route passing the non-claim validations), exactly one route of each
(host, normalized path) key is accepted — the strictly oldest — and every
other route with that key is rejected with HostAlreadyClaimed. -/
theorem checkValidRoute_claims_earliest_route
    (extd : ExtendedRouteGroupSpec) (rs : List Route) (k : String)
    (r0 : Route) (rest : List Route)
    (hfilter : rs.filter (fun r => decide (routeClaimKey r = k)) = r0 :: rest)
    (haux : ∀ r ∈ rs, routeAuxReject extd r = none)
    (hts : (rs.map Route.creationTimestamp).Pairwise (fun a b => ¬ a = b))
    (hsorted : (r0 :: rest).Pairwise
      (fun a b => a.creationTimestamp < b.creationTimestamp)) :
    ((resolveRoutes extd rs []).1.filter (fun p => decide (routeClaimKey p.1 = k)))
        = (r0, none) :: rest.map (fun r => (r, some "HostAlreadyClaimed"))
      ∧ ∀ r ∈ rest, r0.creationTimestamp < r.creationTimestamp := by
  have hlt : ∀ r ∈ rest, r0.creationTimestamp < r.creationTimestamp :=
    (List.pairwise_cons.mp hsorted).1
  exact ⟨resolveRoutes_phase1 extd k r0 rest rs [] rfl haux hfilter hts hlt, hlt⟩

/-- A group spec with no TLS block and neutral options, for witnesses. -/
def extdSpec0 : ExtendedRouteGroupSpec :=
  { vserverName := "vs"
    vserverAddr := "10.0.0.1"
    snat := ""
    waf := ""
    iRules := []
    allowSourceRange := []
    tls := ⟨"", "", ""⟩
    healthMonitors := []
    metaDependsOnTLSCipher := false }

/-- Witness for C1: two routes claiming host.com/ (timestamps 1 and 2);
the older is accepted, the younger is rejected with HostAlreadyClaimed. -/
theorem checkValidRoute_claims_earliest_route_witness :
    ([mkRoute "n1" "host.com" "/" 1, mkRoute "n1" "host.com" "" 2].filter
          (fun r => decide (routeClaimKey r = "host.com/"))
        = mkRoute "n1" "host.com" "/" 1 :: [mkRoute "n1" "host.com" "" 2])
      ∧ (((resolveRoutes extdSpec0
              [mkRoute "n1" "host.com" "/" 1, mkRoute "n1" "host.com" "" 2] []).1.filter
            (fun p => decide (routeClaimKey p.1 = "host.com/")))
          = (mkRoute "n1" "host.com" "/" 1, none)
              :: [mkRoute "n1" "host.com" "" 2].map
                  (fun r => (r, some "HostAlreadyClaimed"))
        ∧ ∀ r ∈ [mkRoute "n1" "host.com" "" 2],
            (mkRoute "n1" "host.com" "/" 1).creationTimestamp < r.creationTimestamp) :=
  ⟨by decide,
    checkValidRoute_claims_earliest_route extdSpec0
      [mkRoute "n1" "host.com" "/" 1, mkRoute "n1" "host.com" "" 2] "host.com/"
      (mkRoute "n1" "host.com" "/" 1) [mkRoute "n1" "host.com" "" 2]
      (by decide) (by decide) (by decide) (by decide)⟩

/-! ## Rule synthesis (prepareRouteLTMRules) and policy merging (Policy.AddRules)

`Rule`, `condition`, `Policy` carry the fields the embedded code touches:
rule name, ordinal, host-match conditions (`HTTPHost`/`Values`), the
raw-TCP marker (`Tcp`), and the action list.  `createRule`,
`getRewriteActions`, `formatVirtualServerRuleName` and the `Rules` sort
order live outside src/ and are modelled from the spec where noted. -/

/-- Go `strings.HasPrefix`. -/
def strStartsWith (s pre : String) : Bool := pre.data.isPrefixOf s.data

structure RuleCondition where
  httpHost : Bool
  values : List String
  tcp : Bool
deriving DecidableEq

structure RouteRule where
  name : String
  ordinal : Nat
  conditions : List RuleCondition
  actions : List String
deriving DecidableEq

structure Policy where
  name : String
  partition : String
  controls : List String
  requiresList : List String
  rules : List RouteRule
deriving DecidableEq

def PolicyControlForward : String := "forward"

/-- Modelled from the spec: rule names are deterministic and unique per
(host, namespace, path, pool) (`formatVirtualServerRuleName` is outside
src/). -/
def formatVirtualServerRuleName (host ns path poolName : String) : String :=
  "vs_" ++ host ++ "_" ++ ns ++ "_" ++ path ++ "_" ++ poolName

/-- Modelled from the spec: `createRule` (outside src/) builds one
match-on-host-and-path, forward-to-pool rule; a raw-TCP condition is
present when source ranges restrict the rule. -/
def createRule (uri poolName ruleName : String)
    (allowSourceRange : List String) : RouteRule :=
  { name := ruleName
    ordinal := 0
    conditions :=
      { httpHost := true, values := [uri], tcp := false }
        :: (if allowSourceRange.isEmpty then []
            else [{ httpHost := false, values := allowSourceRange, tcp := true }])
    actions := ["forward_" ++ poolName] }

/-- The ordinal-assignment pass of the `sortrules` closure: number the
rules consecutively from `n` in iteration order. -/
def sortRulesAssign : List RouteRule → Nat → List RouteRule
  | [], _ => []
  | r :: rs, n => { r with ordinal := n } :: sortRulesAssign rs (n + 1)

/-- Modelled from the spec: rules are always returned sorted by ordinal
(the `Rules` sort interface lives outside src/). -/
def sortRulesByOrdinal (l : List RouteRule) : List RouteRule :=
  List.insertionSort (fun a b => a.ordinal ≤ b.ordinal) l

/-- `prepareRouteLTMRules`: one rule for the route's host+path; failure
(`nil` in Go) when the rewrite annotation is invalid
(`getRewriteActions`, outside src/, validates the rewrite target against
the match path — its outcome is the route's `rewriteInvalid` field);
the rule is filed under the wildcard set when the uri starts with "*.",
exact rules are numbered from 0 and wildcard rules continue after them,
and the merged list is returned sorted by ordinal.  The two `sortrules`
goroutines fold disjoint sets and are embedded sequentially. -/
def prepareRouteLTMRules (route : Route) (poolName : String)
    (allowSourceRange : List String) : Option (List RouteRule) :=
  let uri := route.host ++ route.path
  let ruleName := formatVirtualServerRuleName route.host route.ns route.path poolName
  let rl := createRule uri poolName ruleName allowSourceRange
  let rlOpt : Option RouteRule :=
    match route.urlRewrite with
    | some _ =>
      if route.rewriteInvalid then none
      else some { rl with actions := rl.actions ++ ["rewrite"] }
    | none => some rl
  match rlOpt with
  | none => none
  | some rl =>
    let rlMap : List RouteRule := if strStartsWith uri "*." then [] else [rl]
    let wildcards : List RouteRule := if strStartsWith uri "*." then [rl] else []
    let rls := sortRulesAssign rlMap 0
    let w := sortRulesAssign wildcards rlMap.length
    some (sortRulesByOrdinal (rls ++ w))

/-- The in-place host merge of `Policy.mergeRules`: the first HTTPHost
condition of the existing rule absorbs the first value of the new rule's
first HTTPHost condition. -/
def mapFirstHostCond : List RuleCondition → String → List RuleCondition
  | [], _ => []
  | c :: cs, v =>
    if c.httpHost then { c with values := c.values ++ [v] } :: cs
    else c :: mapFirstHostCond cs v

def mergeHostValues (er nr : RouteRule) : RouteRule :=
  match nr.conditions.find? (fun c => c.httpHost) with
  | none => er
  | some nc => { er with conditions := mapFirstHostCond er.conditions (nc.values.headD "") }

/-- `Policy.mergeRules`: new rules whose name already exists in the
policy merge their host values into the existing rule (Go mutates the
shared rule pointer; here the policy is rebuilt); the rest are net-new.
Name lookup is against the original rule set, as in Go. -/
def mergeRulesGo (orig : Policy) :
    List RouteRule → Policy → List RouteRule → Policy × List RouteRule
  | [], acc, news => (acc, news)
  | nr :: rest, acc, news =>
    if orig.rules.any (fun er => decide (er.name = nr.name)) then
      mergeRulesGo orig rest
        { acc with rules := (acc.rules.map (fun er =>
            if er.name = nr.name then mergeHostValues er nr else er)) }
        news
    else mergeRulesGo orig rest acc (news ++ [nr])

def mergeRules (pol : Policy) (rls : List RouteRule) : Policy × List RouteRule :=
  mergeRulesGo pol rls pol []

/-- `Policy.AddRules`: merge same-name rules, add the "tcp" requirement
once any net-new rule carries a TCP condition, append the net-new rules
and keep the rules sorted (by ordinal, per the spec's merge policy). -/
def Policy.addRules (pol : Policy) (rls : List RouteRule) : Policy :=
  let merged := mergeRules pol rls
  let newRules := merged.2
  let tcpReqExist := merged.1.requiresList.any (fun req => decide (req = "tcp"))
  let requiresTcp :=
    !tcpReqExist && newRules.any (fun x => x.conditions.any (fun c => c.tcp))
  let reqs :=
    if requiresTcp then merged.1.requiresList ++ ["tcp"] else merged.1.requiresList
  { merged.1 with
      requiresList := reqs
      rules := sortRulesByOrdinal (merged.1.rules ++ newRules) }

/-- Modelled from the spec: `createPolicy` (outside src/) wraps the rules
in a fresh forwarding policy. -/
def createPolicy (rls : List RouteRule) (policyName partition : String) : Policy :=
  { name := policyName
    partition := partition
    controls := [PolicyControlForward]
    requiresList := []
    rules := rls }

/-- The ordinal sequence the claim asserts: strictly increasing, starting
at 0. -/
def ordinalsStrictIncrFromZero (pol : Policy) : Prop :=
  ((pol.rules.map (fun r => r.ordinal)).Pairwise (fun a b => a < b))
    ∧ (pol.rules = [] ∨ (pol.rules.map (fun r => r.ordinal)).head? = some 0)

theorem mergeHostValues_ordinal (er nr : RouteRule) :
    (mergeHostValues er nr).ordinal = er.ordinal := by
  unfold mergeHostValues
  cases nr.conditions.find? (fun c => c.httpHost) <;> rfl

theorem mergeRulesGo_ordinal_zero (orig : Policy) :
    ∀ (rls : List RouteRule) (acc : Policy) (news : List RouteRule),
      (∀ r ∈ acc.rules, r.ordinal = 0) →
      (∀ r ∈ news, r.ordinal = 0) →
      (∀ r ∈ rls, r.ordinal = 0) →
      (∀ r ∈ (mergeRulesGo orig rls acc news).1.rules, r.ordinal = 0)
        ∧ (∀ r ∈ (mergeRulesGo orig rls acc news).2, r.ordinal = 0) := by
  intro rls
  induction rls with
  | nil =>
    intro acc news hacc hnews _
    exact ⟨hacc, hnews⟩
  | cons nr rest ih =>
    intro acc news hacc hnews hrls
    unfold mergeRulesGo
    by_cases hc : orig.rules.any (fun er => decide (er.name = nr.name)) = true
    · rw [if_pos hc]
      refine ih _ _ ?_ hnews (fun r hr => hrls r (List.mem_cons_of_mem _ hr))
      intro r hr
      rcases List.mem_map.mp hr with ⟨er, her, heq⟩
      by_cases hn : er.name = nr.name
      · rw [← heq, if_pos hn, mergeHostValues_ordinal]
        exact hacc er her
      · rw [← heq, if_neg hn]
        exact hacc er her
    · rw [if_neg hc]
      refine ih _ _ hacc ?_ (fun r hr => hrls r (List.mem_cons_of_mem _ hr))
      intro r hr
      rcases List.mem_append.mp hr with hr | hr
      · exact hnews r hr
      · rw [List.mem_singleton.mp hr]
        exact hrls nr (List.mem_cons_self nr rest)

theorem singleRuleNumberedZero (rl : RouteRule) (b : Bool) :
    (sortRulesByOrdinal
        ((sortRulesAssign (if b then [] else [rl]) 0)
          ++ sortRulesAssign (if b then [rl] else [])
              (if b then ([] : List RouteRule) else [rl]).length)).map
        (fun r => r.ordinal) = [0] := by
  cases b <;>
    simp [sortRulesAssign, sortRulesByOrdinal, List.insertionSort, List.orderedInsert]

/-- C2 amended (part of the proof): every batch produced by
prepareRouteLTMRules is a single rule carrying ordinal 0 (each call
numbers its lone exact or wildcard rule independently from 0), and
Policy.AddRules preserves "all ordinals are 0"; hence the ordinals of a
policy built from these batches form the constant-0 sequence, which is
strictly increasing only while the policy has at most one rule. -/
theorem prepareRouteLTMRules_single_rule_ordinal_zero :
    (∀ (rt : Route) (poolName : String) (asr : List String) (rules : List RouteRule),
        prepareRouteLTMRules rt poolName asr = some rules →
          rules.map (fun r => r.ordinal) = [0])
      ∧ ∀ (pol : Policy) (batch : List RouteRule),
          (∀ r ∈ pol.rules, r.ordinal = 0) →
          (∀ r ∈ batch, r.ordinal = 0) →
          ∀ r ∈ (Policy.addRules pol batch).rules, r.ordinal = 0 := by
  constructor
  · intro rt poolName asr rules h
    unfold prepareRouteLTMRules at h
    cases hrw : rt.urlRewrite with
    | none =>
      rw [hrw] at h
      dsimp only at h
      injection h with h'
      rw [← h']
      exact singleRuleNumberedZero _ _
    | some s =>
      rw [hrw] at h
      dsimp only at h
      by_cases hinv : rt.rewriteInvalid = true
      · rw [if_pos hinv] at h
        exact Option.noConfusion h
      · rw [if_neg hinv] at h
        dsimp only at h
        injection h with h'
        rw [← h']
        exact singleRuleNumberedZero _ _
  · intro pol batch hpol hbatch r hr
    unfold Policy.addRules at hr
    dsimp only at hr
    have hmerged := mergeRulesGo_ordinal_zero pol batch pol [] hpol (by intro r h; cases h) hbatch
    unfold sortRulesByOrdinal at hr
    have hmem : r ∈ (mergeRules pol batch).1.rules ++ (mergeRules pol batch).2 :=
      (List.mem_insertionSort (fun a b : RouteRule => a.ordinal ≤ b.ordinal)).mp hr
    rcases List.mem_append.mp hmem with hm | hm
    · exact hmerged.1 r hm
    · exact hmerged.2 r hm

/-- Concrete policy built the production way: first route's batch seeds
the policy, the second route's batch is merged with Policy.AddRules. -/
def c2batch1 : List RouteRule :=
  (prepareRouteLTMRules (mkRoute "default" "foo.com" "/a" 1) "p1" []).getD []

def c2batch2 : List RouteRule :=
  (prepareRouteLTMRules (mkRoute "default" "foo.com" "/b" 2) "p2" []).getD []

def c2policy : Policy :=
  Policy.addRules (createPolicy c2batch1 "plc" "test") c2batch2

/-- C2 counterexample: a policy holding the merged rules of two routes of
one group has ordinal sequence [0, 0] — not strictly increasing — because
each prepareRouteLTMRules call numbers its single rule from 0. -/
theorem prepareRouteLTMRules_ordinals_not_strictly_increasing :
    c2policy.rules.map (fun r => r.ordinal) = [0, 0]
      ∧ ¬ ordinalsStrictIncrFromZero c2policy := by
  constructor
  · decide
  · intro hprop
    have := hprop.1
    rw [(by decide : c2policy.rules.map (fun r => r.ordinal) = [0, 0])] at this
    have h01 := List.pairwise_cons.mp this
    exact absurd (h01.1 0 (List.mem_singleton.mpr rfl)) (lt_irrefl 0)

/-- Witness for C2's amended theorem at the concrete two-route policy. -/
theorem prepareRouteLTMRules_single_rule_ordinal_zero_witness :
    c2batch1.map (fun r => r.ordinal) = [0]
      ∧ ∀ r ∈ c2policy.rules, r.ordinal = 0 :=
  ⟨prepareRouteLTMRules_single_rule_ordinal_zero.1
      (mkRoute "default" "foo.com" "/a" 1) "p1" [] c2batch1 (by decide),
    prepareRouteLTMRules_single_rule_ordinal_zero.2
      (createPolicy c2batch1 "plc" "test") c2batch2 (by decide) (by decide)⟩

/-! ## Health monitors (removeUnusedHealthMonitors, pool binding)

`handleRouteGroupExtendedSpec` appends the group's monitors with the Go
zero value `InUse = false`; `prepareResourceConfigFromRoute` marks the
first monitor whose `Path` has `host+path` as a prefix and records its
name on the pool (then breaks); `removeUnusedHealthMonitors` drops every
monitor still unmarked, in place and order-preserving. -/

structure Monitor where
  name : String
  partition : String
  interval : Nat
  monType : String
  send : String
  recv : String
  timeout : Nat
  path : String
  inUse : Bool
deriving DecidableEq

/-- `removeUnusedHealthMonitors`: the index-juggling while loop deletes
every monitor with `InUse == false`, keeping relative order. -/
def removeUnusedHealthMonitors : List Monitor → List Monitor
  | [] => []
  | m :: ms =>
    if m.inUse then m :: removeUnusedHealthMonitors ms
    else removeUnusedHealthMonitors ms

/-- The monitor-binding loop of `prepareResourceConfigFromRoute` for one
backend: mark the first monitor whose path has the route's `host+path` as
a prefix, return its name for the pool's `MonitorNames` (the loop breaks
after the first match). -/
def bindMonitor : List Monitor → String → List Monitor × Option String
  | [], _ => ([], none)
  | m :: ms, hostPath =>
    if strStartsWith m.path hostPath then
      ({ m with inUse := true } :: ms, some m.name)
    else
      let res := bindMonitor ms hostPath
      (m :: res.1, res.2)

/-- The bindings a group build performs: one `bindMonitor` pass per
backend-service of each route, each with that route's `host+path`;
collects the monitor names recorded on pools. -/
def bindAll : List Monitor → List String → List Monitor × List String
  | ms, [] => (ms, [])
  | ms, hp :: hps =>
    let r1 := bindMonitor ms hp
    let r2 := bindAll r1.1 hps
    (r2.1, r1.2.toList ++ r2.2)

theorem removeUnused_eq_filter (ms : List Monitor) :
    removeUnusedHealthMonitors ms = ms.filter (fun m => m.inUse) := by
  induction ms with
  | nil => rfl
  | cons m ms ih =>
    by_cases h : m.inUse
    · simp [removeUnusedHealthMonitors, List.filter_cons, h, ih]
    · simp [removeUnusedHealthMonitors, List.filter_cons, h, ih]

theorem bindMonitor_mem {hp : String} :
    ∀ (ms : List Monitor), ∀ m' ∈ (bindMonitor ms hp).1,
      m' ∈ ms ∨ (m'.inUse = true ∧ strStartsWith m'.path hp = true
        ∧ (bindMonitor ms hp).2 = some m'.name) := by
  intro ms
  induction ms with
  | nil => intro m' h; cases h
  | cons m ms ih =>
    intro m' hm'
    unfold bindMonitor at hm' ⊢
    by_cases hsw : strStartsWith m.path hp = true
    · rw [if_pos hsw] at hm' ⊢
      rcases List.mem_cons.mp hm' with h | h
      · right
        refine ⟨by rw [h], by rw [h]; exact hsw, by rw [h]⟩
      · left; exact List.mem_cons_of_mem _ h
    · rw [if_neg hsw] at hm' ⊢
      rcases List.mem_cons.mp hm' with h | h
      · left; rw [h]; exact List.mem_cons_self _ _
      · rcases ih m' h with h' | h'
        · left; exact List.mem_cons_of_mem _ h'
        · right; exact h'

theorem bindAll_mem :
    ∀ (hps : List String) (ms : List Monitor), ∀ m' ∈ (bindAll ms hps).1,
      m' ∈ ms ∨ (m'.inUse = true ∧ ∃ hp ∈ hps, strStartsWith m'.path hp = true
        ∧ m'.name ∈ (bindAll ms hps).2) := by
  intro hps
  induction hps with
  | nil => intro ms m' h; left; exact h
  | cons hp hps ih =>
    intro ms m' hm'
    unfold bindAll at hm' ⊢
    dsimp only at hm' ⊢
    rcases ih (bindMonitor ms hp).1 m' hm' with h | ⟨hiu, hp', hmem, hsw, hname⟩
    · rcases bindMonitor_mem ms m' h with h' | ⟨hiu, hsw, hname⟩
      · left; exact h'
      · right
        refine ⟨hiu, hp, List.mem_cons_self hp hps, hsw, ?_⟩
        apply List.mem_append.mpr
        left
        rw [hname]
        exact List.mem_cons_self _ _
    · right
      refine ⟨hiu, hp', List.mem_cons_of_mem _ hmem, hsw, ?_⟩
      apply List.mem_append.mpr
      right
      exact hname

/-- C9: Starting from monitors all unmarked (as handleRouteGroupExtendedSpec
creates them), after the binding passes of a group build and
removeUnusedHealthMonitors, every monitor remaining is marked in-use and
was bound by some pool whose route's host+path prefixes the monitor's
path (its name recorded in that pool's MonitorNames); removal itself
keeps exactly the in-use monitors. -/
theorem removeUnusedHealthMonitors_only_inuse_bound_monitors
    (ms : List Monitor) (hps : List String)
    (h0 : ∀ m ∈ ms, m.inUse = false) :
    removeUnusedHealthMonitors (bindAll ms hps).1
        = (bindAll ms hps).1.filter (fun m => m.inUse)
      ∧ ∀ m' ∈ removeUnusedHealthMonitors (bindAll ms hps).1,
          m'.inUse = true
            ∧ ∃ hp ∈ hps, strStartsWith m'.path hp = true
                ∧ m'.name ∈ (bindAll ms hps).2 := by
  refine ⟨removeUnused_eq_filter _, ?_⟩
  intro m' hm'
  rw [removeUnused_eq_filter] at hm'
  have hmem := List.mem_filter.mp hm'
  have hiu : m'.inUse = true := by simpa using hmem.2
  rcases bindAll_mem hps ms m' hmem.1 with h | ⟨_, hex⟩
  · exact absurd hiu (by rw [h0 m' h]; exact Bool.false_ne_true)
  · exact ⟨hiu, hex⟩

/-- Witness for C9: one monitor matching a route's host+path, one left
unreferenced; only the bound one remains after removal. -/
theorem removeUnusedHealthMonitors_only_inuse_bound_monitors_witness :
    (∀ m ∈ [(⟨"m1_monitor", "test", 5, "http", "", "", 10, "mysite.com/app/health", false⟩ : Monitor),
            ⟨"m2_monitor", "test", 5, "http", "", "", 10, "othersite.com/", false⟩], m.inUse = false)
      ∧ (removeUnusedHealthMonitors
            (bindAll [(⟨"m1_monitor", "test", 5, "http", "", "", 10, "mysite.com/app/health", false⟩ : Monitor),
              ⟨"m2_monitor", "test", 5, "http", "", "", 10, "othersite.com/", false⟩] ["mysite.com/app"]).1
          = (bindAll [(⟨"m1_monitor", "test", 5, "http", "", "", 10, "mysite.com/app/health", false⟩ : Monitor),
              ⟨"m2_monitor", "test", 5, "http", "", "", 10, "othersite.com/", false⟩] ["mysite.com/app"]).1.filter
              (fun m => m.inUse)
        ∧ ∀ m' ∈ removeUnusedHealthMonitors
            (bindAll [(⟨"m1_monitor", "test", 5, "http", "", "", 10, "mysite.com/app/health", false⟩ : Monitor),
              ⟨"m2_monitor", "test", 5, "http", "", "", 10, "othersite.com/", false⟩] ["mysite.com/app"]).1,
            m'.inUse = true
              ∧ ∃ hp ∈ ["mysite.com/app"], strStartsWith m'.path hp = true
                  ∧ m'.name ∈ (bindAll [(⟨"m1_monitor", "test", 5, "http", "", "", 10, "mysite.com/app/health", false⟩ : Monitor),
                      ⟨"m2_monitor", "test", 5, "http", "", "", 10, "othersite.com/", false⟩] ["mysite.com/app"]).2) :=
  ⟨by decide,
    removeUnusedHealthMonitors_only_inuse_bound_monitors
      [⟨"m1_monitor", "test", 5, "http", "", "", 10, "mysite.com/app/health", false⟩,
        ⟨"m2_monitor", "test", 5, "http", "", "", 10, "othersite.com/", false⟩]
      ["mysite.com/app"] (by decide)⟩

/-! ## Resource configs (ConfigBuilder)

`ResourceConfig` with the parts the worker writes: the virtual (name,
partition, port, SNAT/WAF/iRules/source ranges, policy refs, profiles),
pools, monitors, policies, the iRules map, the internal datagroup map
(flattened over the constant DEFAULT_PARTITION and the namespace layer,
neither of which these claims observe) and the generated custom SSL
profile names. -/

def DEFAULT_HTTP_PORT : Nat := 80
def DEFAULT_HTTPS_PORT : Nat := 443
def DEFAULT_SNAT : String := "auto"

/-- Modelled: the process-wide default partition (a deployment flag). -/
def DEFAULT_PARTITION : String := "Common"

def HttpRedirectIRuleName : String := "http_redirect_irule"
def HttpRedirectNoHostIRuleName : String := "http_redirect_irule_nohost"
def HttpsRedirectDgName : String := "https_redirect_dg"
def TLSIRuleName : String := "tls_irule"
def ReencryptHostsDgName : String := "ssl_reencrypt_servername_dg"
def EdgeHostsDgName : String := "ssl_edge_servername_dg"
def ReencryptServerSslDgName : String := "ssl_reencrypt_serverssl_dg"
def EdgeServerSslDgName : String := "ssl_edge_serverssl_dg"

def BIGIP : String := "bigip"
def SecretRef : String := "secret"
def CertificateRef : String := "certificate"
def CustomProfileClient : String := "clientside"
def CustomProfileServer : String := "serverside"

/-- Modelled (route API / cisapiv1 constants outside src/): termination
modes and insecure-traffic policies as lower-case strings. -/
def TLSPassthrough : String := "passthrough"
def TLSEdge : String := "edge"
def TLSReencrypt : String := "reencrypt"
def TLSAllowInsecure : String := "allow"
def TLSRedirectInsecure : String := "redirect"
def TLSNoInsecure : String := "none"

/-- `AS3NameFormatter`: the Go code runs `ReplaceAll` passes in the order
".", ":", "/", "%", "-", "="; no replacement output matches a pattern of
a later pass (the "." produced from "%" comes after the "." pass), so
the sequence equals this per-character map. -/
def as3FmtChar (c : Char) : Char :=
  if c = '.' then '_'
  else if c = ':' then '_'
  else if c = '/' then '_'
  else if c = '%' then '.'
  else if c = '-' then '_'
  else if c = '=' then '_'
  else c

def AS3NameFormatter (name : String) : String :=
  String.mk (name.data.map as3FmtChar)

def formatCustomVirtualServerName (name : String) (port : Nat) : String :=
  AS3NameFormatter name ++ "_" ++ toString port

structure PortStruct where
  protocol : String
  port : Nat
deriving DecidableEq

def frameRouteVSName (vServerName vServerAddr : String) (ps : PortStruct) : String :=
  if vServerName ≠ "" then formatCustomVirtualServerName vServerName ps.port
  else formatCustomVirtualServerName ("routes_" ++ vServerAddr) ps.port

/-- `formatPoolName` (its node-member-label `=`→`_` rewrite included);
the worker's call sites pass an empty label. -/
def formatPoolName (ns svc : String) (port : Nat) (nodeMemberLabel : String) : String :=
  let base := svc ++ "_" ++ toString port ++ "_" ++ ns
  let full :=
    if nodeMemberLabel ≠ "" then
      base ++ "_" ++ String.mk (nodeMemberLabel.data.map (fun c => if c = '=' then '_' else c))
    else base
  AS3NameFormatter full

/-- Go `strings.Replace(host, "*", "wildcard", 1)`. -/
def replaceFirstStar : List Char → List Char
  | [] => []
  | c :: cs => if c = '*' then ("wildcard".data ++ cs) else c :: replaceFirstStar cs

def formatPolicyName (hostname hostGroup name : String) : String :=
  let host := if hostGroup ≠ "" then hostGroup else hostname
  let host := if strStartsWith host "*" then String.mk (replaceFirstStar host.data) else host
  AS3NameFormatter (name ++ "_" ++ host ++ "_" ++ "policy")

def getRSCfgResName (rsVSName resName : String) : String :=
  rsVSName ++ "_" ++ resName

def JoinBigipPath (partition objName : String) : String :=
  if objName = "" then ""
  else if partition = "" then objName
  else "/" ++ partition ++ "/" ++ objName

/-- Go `strings.ToLower` (`String.toLower` iterates with string positions
that the kernel cannot evaluate, so the character list is mapped
directly). -/
def strToLower (s : String) : String := String.mk (s.data.map Char.toLower)

/-- Go `strings.TrimSuffix(s, "/")`: drop one trailing "/" if present. -/
def trimTrailingSlash (s : String) : String :=
  if s.data.getLast? = some '/' then String.mk s.data.dropLast else s

structure ProfileRef where
  name : String
  partition : String
  context : String
  namespaceName : String
  bigIPProfile : Bool
deriving DecidableEq

/-- Go `strings.Split(s, "/")` on the character list. -/
def splitSlashGo : List Char → List Char → List String
  | [], acc => [String.mk acc.reverse]
  | c :: cs, acc =>
    if c = '/' then String.mk acc.reverse :: splitSlashGo cs []
    else splitSlashGo cs (c :: acc)

def isSpaceChar (c : Char) : Bool := c = ' ' || c = '\t' || c = '\n' || c = '\r'

/-- `ConvertStringToProfileRef`: trim space, drop one leading "/", split
on "/"; two parts give partition/name, one part falls back to the
default partition, anything else is passed through with a warning. -/
def ConvertStringToProfileRef (profileName context ns : String) : ProfileRef :=
  let trimmed := (profileName.data.dropWhile isSpaceChar).reverse.dropWhile isSpaceChar |>.reverse
  let trimmed := match trimmed with
    | '/' :: rest => rest
    | l => l
  let parts := splitSlashGo trimmed []
  match parts with
  | [p, n] => { name := n, partition := p, context := context, namespaceName := ns, bigIPProfile := true }
  | [_] => { name := profileName, partition := DEFAULT_PARTITION, context := context, namespaceName := ns, bigIPProfile := true }
  | _ => { name := "", partition := "", context := context, namespaceName := ns, bigIPProfile := true }

structure VirtualM where
  name : String
  partition : String
  enabled : Bool
  port : Nat
  bindAddr : String
  snat : String
  waf : String
  iRules : List String
  allowSourceRange : List String
  policies : List (String × String)
  profiles : List ProfileRef
deriving DecidableEq

/-- `Virtual.AddIRule`: append the reference unless already present. -/
def VirtualM.addIRuleRef (v : VirtualM) (ruleName : String) : VirtualM :=
  if v.iRules.any (fun ir => decide (ir = ruleName)) then v
  else { v with iRules := v.iRules ++ [ruleName] }

/-- `Virtual.AddOrUpdateProfile`: the profiles stay sorted by
(partition, name); an existing entry is replaced when the context
changed, otherwise the profile is inserted at its position. -/
def insertProfileSorted : List ProfileRef → ProfileRef → List ProfileRef
  | [], p => [p]
  | q :: qs, p =>
    if strLtB q.partition p.partition
        || (decide (q.partition = p.partition) && strLtB q.name p.name) then
      q :: insertProfileSorted qs p
    else if q.partition = p.partition ∧ q.name = p.name then p :: qs
    else p :: q :: qs

def VirtualM.addOrUpdateProfile (v : VirtualM) (prof : ProfileRef) : VirtualM :=
  { v with profiles := insertProfileSorted v.profiles prof }

structure Pool where
  name : String
  partition : String
  serviceName : String
  serviceNamespace : String
  servicePort : Nat
  nodeMemberLabel : String
  balance : String
  monitorNames : List String
deriving DecidableEq

structure RsCfg where
  virtual : VirtualM
  protocol : String
  hosts : List String
  pools : List Pool
  monitors : List Monitor
  policies : List Policy
  iRulesMap : List ((String × String) × String)
  intDgMap : List (String × List InternalDataGroupRecord)
  customProfiles : List String
deriving DecidableEq


/-- `ResourceConfig.addIRule`: create the iRule unless the (name,
partition) key exists. -/
def RsCfg.addIRule (cfg : RsCfg) (name partition rule : String) : RsCfg :=
  if cfg.iRulesMap.any (fun e => decide (e.1 = (name, partition))) then cfg
  else { cfg with iRulesMap := cfg.iRulesMap ++ [((name, partition), rule)] }

/-- `ResourceConfig.addInternalDataGroup`: create an empty datagroup
unless present. -/
def RsCfg.addInternalDataGroup (cfg : RsCfg) (name : String) : RsCfg :=
  if cfg.intDgMap.any (fun e => decide (e.1 = name)) then cfg
  else { cfg with intDgMap := cfg.intDgMap ++ [(name, [])] }

/-- Modelled (outside src/): `updateDataGroup` get-or-creates the named
datagroup and runs `InternalDataGroup.AddOrUpdateRecord` on it. -/
def RsCfg.updateDataGroup (cfg : RsCfg) (dg rec data : String) : RsCfg :=
  { cfg with intDgMap :=
      match lookupA cfg.intDgMap dg with
      | some records => insertA cfg.intDgMap dg (addOrUpdateRecord records rec data).1
      | none => cfg.intDgMap ++ [(dg, (addOrUpdateRecord [] rec data).1)] }

/-- Modelled from the spec (outside src/): `updateDataGroupOfDgName`
binds a hostname entry into the named per-termination datagroup for each
pool-path reference. -/
def RsCfg.updateDataGroupOfDgName (cfg : RsCfg)
    (poolPathRefs : List (String × String)) (rsVSName dgName hostname : String) : RsCfg :=
  poolPathRefs.foldl
    (fun c ppr => c.updateDataGroup (getRSCfgResName rsVSName dgName) hostname ppr.2) cfg

/-- Modelled (outside src/): the iRule TCL bodies are opaque strings. -/
def getTLSIRule (vsName : String) : String := "irule_code_tls_" ++ vsName
def httpRedirectIRule (port : Nat) (vsName partition : String) : String :=
  "irule_code_redirect_" ++ partition ++ "_" ++ vsName ++ "_" ++ toString port
def httpRedirectIRuleNoHost (port : Nat) : String :=
  "irule_code_redirect_nohost_" ++ toString port

/-- `handleDataGroupIRules`: per termination, attach the shared TLS iRule
and create the per-termination datagroups; reference the TLS iRule on the
virtual once when a host is known. -/
def handleDataGroupIRules (cfg : RsCfg) (vsHost tlsTerminationType : String) : RsCfg :=
  if tlsTerminationType ≠ "" then
    let tlsIRuleRef := JoinBigipPath DEFAULT_PARTITION
      (getRSCfgResName cfg.virtual.name TLSIRuleName)
    let cfg1 :=
      if tlsTerminationType = TLSEdge then
        ((cfg.addIRule (getRSCfgResName cfg.virtual.name TLSIRuleName) DEFAULT_PARTITION
            (getTLSIRule cfg.virtual.name)).addInternalDataGroup
          (getRSCfgResName cfg.virtual.name EdgeHostsDgName)).addInternalDataGroup
          (getRSCfgResName cfg.virtual.name EdgeServerSslDgName)
      else if tlsTerminationType = TLSReencrypt then
        ((cfg.addIRule (getRSCfgResName cfg.virtual.name TLSIRuleName) DEFAULT_PARTITION
            (getTLSIRule cfg.virtual.name)).addInternalDataGroup
          (getRSCfgResName cfg.virtual.name ReencryptHostsDgName)).addInternalDataGroup
          (getRSCfgResName cfg.virtual.name ReencryptServerSslDgName)
      else cfg
    if vsHost ≠ "" then { cfg1 with virtual := cfg1.virtual.addIRuleRef tlsIRuleRef }
    else cfg1
  else cfg

structure BigIPSSLProfiles where
  clientSSL : String
  serverSSL : String
  key : String
  certificate : String
  caCertificate : String
  destinationCACertificate : String
deriving DecidableEq

structure TLSContext where
  name : String
  namespaceName : String
  resourceType : String
  referenceType : String
  hostname : String
  httpsPort : Nat
  ipAddress : String
  termination : String
  httpTraffic : String
  poolPathRefs : List (String × String)
  bigIPSSLProfiles : BigIPSSLProfiles
  /-- Modelled from the spec: outcome of the external TLS-material
  resolution (secret fetch / SSL-profile synthesis, all outside src/);
  a failure aborts just as the Go error paths return false. -/
  profileCreateOk : Bool
deriving DecidableEq

/-- The reference-type switch of `handleTLS` (BIG-IP-resident profiles,
cluster secrets, inline certificate material); `none` models the Go
`return false` paths: a missing secret or a failing profile synthesis
(`createSecretClientSSLProfile`, `createClientSSLProfile`,
`createServerSSLProfile`, all outside src/, summarized by
`profileCreateOk`), or an invalid reference type. -/
def handleTLSProfileStep (cfg : RsCfg) (ctx : TLSContext) : Option RsCfg :=
  let clientSSL := ctx.bigIPSSLProfiles.clientSSL
  let serverSSL := ctx.bigIPSSLProfiles.serverSSL
  if ctx.referenceType = BIGIP then
    let cfg1 :=
      if clientSSL ≠ "" then
        { cfg with virtual := (cfg.virtual.addOrUpdateProfile
            (ConvertStringToProfileRef clientSSL CustomProfileClient ctx.namespaceName)) }
      else cfg
    let cfg2 :=
      if serverSSL ≠ "" then
        { cfg1 with virtual := (cfg1.virtual.addOrUpdateProfile
            (ConvertStringToProfileRef serverSSL CustomProfileServer ctx.namespaceName)) }
      else cfg1
    some cfg2
  else if ctx.referenceType = SecretRef then
    if clientSSL ≠ "" ∧ ¬ ctx.profileCreateOk then none
    else if serverSSL ≠ "" ∧ ¬ ctx.profileCreateOk then none
    else
      some { cfg with customProfiles := cfg.customProfiles
        ++ (if clientSSL ≠ "" then [clientSSL] else [])
        ++ (if serverSSL ≠ "" then [serverSSL] else []) }
  else if ctx.referenceType = CertificateRef then
    if ctx.bigIPSSLProfiles.key ≠ "" ∧ ctx.bigIPSSLProfiles.certificate ≠ ""
        ∧ ¬ ctx.profileCreateOk then none
    else
      let cfg1 :=
        if ctx.bigIPSSLProfiles.key ≠ "" ∧ ctx.bigIPSSLProfiles.certificate ≠ "" then
          { cfg with customProfiles := cfg.customProfiles ++ [ctx.name ++ "-client"] }
        else cfg
      if ctx.bigIPSSLProfiles.destinationCACertificate ≠ "" ∧ ¬ ctx.profileCreateOk then none
      else if ctx.bigIPSSLProfiles.destinationCACertificate ≠ "" then
        some { cfg1 with customProfiles := cfg1.customProfiles ++ [ctx.name ++ "-server"] }
      else some cfg1
  else none

/-- `handleTLS`.  HTTPS side: passthrough is a no-op; otherwise resolve
profiles per reference type, write the per-termination server-SSL
datagroup entries for each pool path, reject reencrypt combined with an
allow-insecure HTTP policy, bind the hosts datagroups and the shared TLS
iRule.  HTTP side: redirect attaches the (host-aware or host-agnostic)
redirect iRule and datagroup; allow and none attach nothing. -/
def handleTLS (cfg : RsCfg) (ctx : TLSContext) : Bool × RsCfg :=
  if cfg.virtual.port = ctx.httpsPort then
    if ctx.termination = TLSPassthrough then (true, cfg)
    else
      match handleTLSProfileStep cfg ctx with
      | none => (false, cfg)
      | some cfg1 =>
        let serverSSL := ctx.bigIPSSLProfiles.serverSSL
        let cfg2 := ctx.poolPathRefs.foldl
          (fun c ppr =>
            if ctx.termination = TLSEdge then
              c.updateDataGroup (getRSCfgResName c.virtual.name EdgeServerSslDgName)
                (trimTrailingSlash (ctx.hostname ++ ppr.1)) "false"
            else if ctx.termination = TLSReencrypt ∧ serverSSL ≠ "" then
              c.updateDataGroup (getRSCfgResName c.virtual.name ReencryptServerSslDgName)
                (trimTrailingSlash (ctx.hostname ++ ppr.1))
                (AS3NameFormatter ("crd_" ++ ctx.ipAddress ++ "_tls_client"))
            else c) cfg1
        if ctx.termination = TLSReencrypt then
          if ctx.httpTraffic = TLSAllowInsecure then (false, cfg2)
          else
            let cfg3 := cfg2.updateDataGroupOfDgName ctx.poolPathRefs
              cfg2.virtual.name ReencryptHostsDgName ctx.hostname
            (true, handleDataGroupIRules cfg3 ctx.hostname ctx.termination)
        else if ctx.termination = TLSEdge then
          let cfg3 := cfg2.updateDataGroupOfDgName ctx.poolPathRefs
            cfg2.virtual.name EdgeHostsDgName ctx.hostname
          (true, handleDataGroupIRules cfg3 ctx.hostname ctx.termination)
        else (true, handleDataGroupIRules cfg2 ctx.hostname ctx.termination)
  else
    if ctx.httpTraffic ≠ "" then
      if ctx.httpTraffic = TLSRedirectInsecure then
        let ruleBase :=
          if ctx.hostname = "" then
            getRSCfgResName cfg.virtual.name HttpRedirectNoHostIRuleName
              ++ "_" ++ toString ctx.httpsPort
          else
            getRSCfgResName cfg.virtual.name HttpRedirectIRuleName
              ++ "_" ++ toString ctx.httpsPort
        let cfg1 :=
          if ctx.hostname = "" then
            cfg.addIRule ruleBase DEFAULT_PARTITION (httpRedirectIRuleNoHost ctx.httpsPort)
          else
            cfg.addIRule ruleBase DEFAULT_PARTITION
              (httpRedirectIRule ctx.httpsPort cfg.virtual.name DEFAULT_PARTITION)
        let cfg2 := { cfg1 with virtual :=
          (cfg1.virtual.addIRuleRef (JoinBigipPath DEFAULT_PARTITION ruleBase)) }
        (true, cfg2.updateDataGroupOfDgName ctx.poolPathRefs
          cfg2.virtual.name HttpsRedirectDgName ctx.hostname)
      else (true, cfg)
    else (true, cfg)

/-- `handleRouteTLS`: routes always resolve TLS with the
inline-certificate reference type at the default HTTPS port; the
insecure-traffic policy is lower-cased; the pool-path references come
from the pools the route contributed. -/
def handleRouteTLS (cfg : RsCfg) (route : Route) (extd : ExtendedRouteGroupSpec)
    (servicePort : Nat) : Bool × RsCfg :=
  match route.tls with
  | none => (false, cfg)
  | some t =>
    let profs : BigIPSSLProfiles :=
      { clientSSL := ""
        serverSSL := ""
        key := t.key
        certificate := t.certificate
        caCertificate := t.caCertificate
        destinationCACertificate := t.destinationCACertificate }
    let poolPathRefs := cfg.pools.filterMap (fun pl =>
      if pl.name = formatPoolName route.ns route.toName servicePort "" then
        some (route.path, formatPoolName route.ns route.toName pl.servicePort "")
      else none)
    handleTLS cfg
      { name := route.name
        namespaceName := route.ns
        resourceType := "Route"
        referenceType := CertificateRef
        hostname := route.host
        httpsPort := DEFAULT_HTTPS_PORT
        ipAddress := extd.vserverAddr
        termination := t.termination
        httpTraffic := strToLower t.insecurePolicy
        poolPathRefs := poolPathRefs
        bigIPSSLProfiles := profs
        profileCreateOk := route.profileCreateOk }

/-! ## Group builds (processRoutes) -/

def isSecureRoute (r : Route) : Bool := r.tls.isSome

def isPassthroughRoute (r : Route) : Bool :=
  match r.tls with
  | some t => decide (t.termination = TLSPassthrough)
  | none => false

def routeInsecurePolicy (r : Route) : String :=
  match r.tls with
  | some t => t.insecurePolicy
  | none => ""

/-- Modelled (outside src/): the route's backends are the primary
`Spec.To` service followed by the alternate backends. -/
def GetRouteBackends (rt : Route) : List String := rt.toName :: rt.alternateBackends

/-- Modelled (outside src/): a route with alternate backends is an A/B
deployment. -/
def IsRouteABDeployment (rt : Route) : Bool := !rt.alternateBackends.isEmpty

def getBasicVirtualPorts : List PortStruct :=
  [⟨"http", DEFAULT_HTTP_PORT⟩, ⟨"https", DEFAULT_HTTPS_PORT⟩]

def getVirtualPortsForRoutes (routes : List Route) : List PortStruct :=
  if routes.any isSecureRoute then getBasicVirtualPorts
  else [⟨"http", DEFAULT_HTTP_PORT⟩]

/-- `doRoutesHandleHTTP`: some route is insecure, or allows or redirects
insecure traffic. -/
def doRoutesHandleHTTP (routes : List Route) : Bool :=
  routes.any (fun r =>
    match r.tls with
    | none => true
    | some t => decide (t.insecurePolicy = "Allow") || decide (t.insecurePolicy = "Redirect"))

/-- `ResourceConfig.FindPolicy`. -/
def FindPolicy (cfg : RsCfg) (controlType : String) : Option Policy :=
  cfg.policies.find? (fun pol => pol.controls.any (fun c => decide (c = controlType)))

/-- `ResourceConfig.SetPolicy`: reference the policy on the virtual once,
replace the policy with the same name and partition (unique in every
config this code builds) or append it. -/
def SetPolicy (cfg : RsCfg) (policy : Policy) : RsCfg :=
  let refs :=
    if cfg.virtual.policies.any (fun p => decide (p = (policy.name, policy.partition))) then
      cfg.virtual.policies
    else cfg.virtual.policies ++ [(policy.name, policy.partition)]
  let pols :=
    if cfg.policies.any (fun p => decide (p.name = policy.name ∧ p.partition = policy.partition)) then
      cfg.policies.map (fun p =>
        if p.name = policy.name ∧ p.partition = policy.partition then policy else p)
    else cfg.policies ++ [policy]
  { cfg with virtual := { cfg.virtual with policies := refs }, policies := pols }

/-- `ResourceConfig.AddRuleToPolicy`: merge into the existing forwarding
policy, else create one. -/
def AddRuleToPolicy (cfg : RsCfg) (policyName partition : String)
    (rules : List RouteRule) : RsCfg :=
  match FindPolicy cfg PolicyControlForward with
  | some policy => SetPolicy cfg (Policy.addRules policy rules)
  | none => SetPolicy cfg (createPolicy rules policyName partition)

/-- The backend loop of `prepareResourceConfigFromRoute`: a pool per
backend service, the first path-matching monitor bound to it, and a
forwarding rule unless the route is passthrough or an A/B deployment;
`none` models the rule-synthesis error return. -/
def prepareBackends (route : Route) (servicePort : Nat) :
    List String → RsCfg → Option RsCfg
  | [], cfg => some cfg
  | bs :: rest, cfg =>
    let poolName := formatPoolName route.ns bs servicePort ""
    let bound := bindMonitor cfg.monitors (route.host ++ route.path)
    let pool : Pool :=
      { name := poolName
        partition := cfg.virtual.partition
        serviceName := bs
        serviceNamespace := route.ns
        servicePort := servicePort
        nodeMemberLabel := ""
        balance := route.balance
        monitorNames := bound.2.toList }
    let cfg1 := { cfg with monitors := bound.1, pools := cfg.pools ++ [pool] }
    if ¬ isPassthroughRoute route ∧ ¬ IsRouteABDeployment route then
      match prepareRouteLTMRules route poolName cfg1.virtual.allowSourceRange with
      | none => none
      | some rules =>
        let policyName := formatPolicyName route.host route.ns cfg1.virtual.name
        prepareBackends route servicePort rest
          (AddRuleToPolicy cfg1 policyName cfg1.virtual.partition rules)
    else prepareBackends route servicePort rest cfg1

/-- `prepareResourceConfigFromRoute`: skip entirely on the HTTP pair when
the route disables insecure traffic; otherwise record the host and run
the backend loop. -/
def prepareResourceConfigFromRoute (cfg : RsCfg) (route : Route)
    (servicePort : Nat) (ps : PortStruct) : Option RsCfg :=
  if ps.protocol = "http" ∧ route.tls.isSome
      ∧ (routeInsecurePolicy route = "" ∨ routeInsecurePolicy route = "None") then
    some cfg
  else
    prepareBackends route servicePort (GetRouteBackends route)
      { cfg with hosts := cfg.hosts ++ [route.host] }

/-- `handleRouteGroupExtendedSpec` (never fails in the source): apply
SNAT (default "auto"), WAF, user iRules and the group's health monitors
(type defaulting to "http", name derived from the path, unmarked). -/
def handleRouteGroupExtendedSpec (cfg : RsCfg) (extd : ExtendedRouteGroupSpec) : RsCfg :=
  { cfg with
      virtual := { cfg.virtual with
        snat := if extd.snat = "" then DEFAULT_SNAT else extd.snat
        waf := extd.waf
        iRules := extd.iRules }
      monitors := cfg.monitors ++ extd.healthMonitors.map (fun hm =>
        { name := AS3NameFormatter hm.path ++ "_monitor"
          partition := cfg.virtual.partition
          interval := hm.interval
          monType := if hm.monType = "" then "http" else hm.monType
          send := hm.send
          recv := hm.recv
          timeout := hm.timeout
          path := hm.path
          inUse := false }) }

/-- The per-port route loop of `processRoutes`: `none` models the
processing-error break (rule synthesis failed or TLS handling reported
failure).  The pool-member update and the processed-resource bookkeeping
touch caches outside the config store and are not modelled. -/
def buildCfgForRoutes (extd : ExtendedRouteGroupSpec) (ps : PortStruct) :
    List Route → RsCfg → Option RsCfg
  | [], cfg => some cfg
  | rt :: rest, cfg =>
    match prepareResourceConfigFromRoute cfg rt rt.svcPort ps with
    | none => none
    | some cfg1 =>
      if isSecureRoute rt then
        let res := handleRouteTLS cfg1 rt extd rt.svcPort
        if res.1 then buildCfgForRoutes extd ps rest res.2 else none
      else buildCfgForRoutes extd ps rest cfg1

abbrev ResourceMapM : Type := List (String × RsCfg)

abbrev LTMConfigM : Type := List (String × List (String × RsCfg))

/-- `deleteVirtualServer` → `getPartitionResourceMap` (which creates the
partition map when absent) followed by `delete`. -/
def deleteVirtualServerM (ltm : LTMConfigM) (partition rsName : String) : LTMConfigM :=
  let pm := (lookupA ltm partition).getD []
  insertA ltm partition (eraseA pm rsName)

/-- `getVirtualServer` (outside src/): a plain resource lookup. -/
def getVirtualServerM (ltm : LTMConfigM) (partition rsName : String) : Option RsCfg :=
  match lookupA ltm partition with
  | some pm => lookupA pm rsName
  | none => none

/-- The commit loop of `processRoutes`: every built config of `vsMap`
into the partition's resource map. -/
def commitVsMap (ltm : LTMConfigM) (partition : String) (vsMap : ResourceMapM) : LTMConfigM :=
  vsMap.foldl
    (fun l p =>
      let pm := (lookupA l partition).getD []
      insertA l partition (insertA pm p.1 p.2)) ltm

/-- A fresh per-port config exactly as `processRoutes` seeds it
(`SetVirtualAddress` keeps the bind address and port; the parsed
destination string is derived data the claims do not observe). -/
def freshRsCfg (partition rsName : String) (ps : PortStruct)
    (extd : ExtendedRouteGroupSpec) : RsCfg :=
  { virtual :=
      { name := rsName
        partition := partition
        enabled := true
        port := ps.port
        bindAddr := extd.vserverAddr
        snat := ""
        waf := ""
        iRules := []
        allowSourceRange := extd.allowSourceRange
        policies := []
        profiles := [] }
    protocol := ps.protocol
    hosts := []
    pools := []
    monitors := []
    policies := []
    iRulesMap := []
    intDgMap := []
    customProfiles := [] }

/-- The port loop of `processRoutes`: delete the HTTP config when no
route serves insecure traffic; otherwise build the per-port config,
dropping unused monitors, stopping the loop on the first processing
error; successful configs land in the temporary vsMap. -/
def processPorts (extd : ExtendedRouteGroupSpec) (partition : String)
    (routes : List Route) :
    List PortStruct → LTMConfigM → ResourceMapM → LTMConfigM × ResourceMapM × Bool
  | [], ltm, vsMap => (ltm, vsMap, false)
  | ps :: rest, ltm, vsMap =>
    let rsName := frameRouteVSName extd.vserverName extd.vserverAddr ps
    if ps.protocol = "http" ∧ ¬ doRoutesHandleHTTP routes then
      processPorts extd partition routes rest (deleteVirtualServerM ltm partition rsName) vsMap
    else
      let cfg0 := handleRouteGroupExtendedSpec (freshRsCfg partition rsName ps extd) extd
      match buildCfgForRoutes extd ps routes cfg0 with
      | none => (ltm, vsMap, true)
      | some cfg1 =>
        processPorts extd partition routes rest ltm
          (insertA vsMap rsName
            { cfg1 with monitors := removeUnusedHealthMonitors cfg1.monitors })

/-- The controller state the group build reads and writes: the parsed
extended-spec map, the per-namespace route informer cache (external),
the host-path claim map and the LTM config store. -/
structure CtlrState where
  extdSpecMap : List (String × extendedParsedSpec)
  routesByNs : List (String × List Route)
  hostPathMap : List (String × Nat)
  ltmConfig : LTMConfigM
deriving DecidableEq

/-- `getGroupedRoutes`: per namespace of the group, the ordered routes
are validated (`resolveRoutes` = checkValidRoute + updateHostPathMap) and
the accepted ones collected. -/
def getGroupedRoutesGo (extd : ExtendedRouteGroupSpec)
    (routesByNs : List (String × List Route)) :
    List String → List (String × Nat) → List Route × List (String × Nat)
  | [], hp => ([], hp)
  | ns :: rest, hp =>
    let ordered := getOrderedRoutes ns ((lookupA routesByNs ns).getD [])
    let res := resolveRoutes extd ordered hp
    let accepted := res.1.filterMap (fun p => if p.2.isNone then some p.1 else none)
    let tail := getGroupedRoutesGo extd routesByNs rest res.2
    (accepted ++ tail.1, tail.2)

structure ProcOut where
  state : CtlrState
  err : Option String
  processingError : Bool
deriving DecidableEq

/-- `processRoutes`: resolve the effective spec (error when nil), group
the routes, delete the group's virtuals on a trigger-delete or an empty
group, else build per port and commit the vsMap only when no processing
error occurred.  The final `return nil` of the source is the `err :=
none` on every path past the spec lookup. -/
def processRoutes (st : CtlrState) (routeGroup : String) (triggerDelete : Bool) : ProcOut :=
  match lookupA st.extdSpecMap routeGroup with
  | none =>
    { state := st, err := some "extended Route Spec not available", processingError := false }
  | some entry =>
    match getExtendedRouteSpec st.extdSpecMap routeGroup with
    | none =>
      { state := st, err := some "extended Route Spec not available", processingError := false }
    | some extd =>
      let partition := entry.partition
      let grouped := getGroupedRoutesGo extd st.routesByNs entry.namespaces st.hostPathMap
      let routes := grouped.1
      let st1 := { st with hostPathMap := grouped.2 }
      if triggerDelete ∨ routes.isEmpty then
        let ltm1 := getBasicVirtualPorts.foldl
          (fun l ps =>
            let rsName := frameRouteVSName extd.vserverName extd.vserverAddr ps
            if (getVirtualServerM l partition rsName).isSome then
              deleteVirtualServerM l partition rsName
            else l) st.ltmConfig
        { state := { st1 with ltmConfig := ltm1 }, err := none, processingError := false }
      else
        let res := processPorts extd partition routes
          (getVirtualPortsForRoutes routes) st.ltmConfig []
        let ltmFinal := if res.2.2 then res.1 else commitVsMap res.1 partition res.2.1
        { state := { st1 with ltmConfig := ltmFinal }, err := none,
          processingError := res.2.2 }

theorem lookupA_cons {α : Type} (k' : String) (v' : α)
    (rest : List (String × α)) (k : String) :
    lookupA ((k', v') :: rest) k = if k' = k then some v' else lookupA rest k := rfl

theorem eraseA_cons {α : Type} (k' : String) (v' : α)
    (rest : List (String × α)) (key : String) :
    eraseA ((k', v') :: rest) key
      = if k' = key then eraseA rest key else (k', v') :: eraseA rest key := rfl

theorem lookupA_eraseA {α : Type} (m : List (String × α)) (key k : String) :
    lookupA (eraseA m key) k = if key = k then none else lookupA m k := by
  induction m with
  | nil =>
    by_cases h : key = k
    · simp [eraseA, lookupA, h]
    · simp [eraseA, lookupA, h]
  | cons e rest ih =>
    obtain ⟨k', v'⟩ := e
    rw [eraseA_cons]
    by_cases h1 : k' = key
    · rw [if_pos h1, ih, lookupA_cons]
      by_cases h2 : key = k
      · rw [if_pos h2, if_pos h2]
      · have h4 : ¬ k' = k := by rw [h1]; exact h2
        rw [if_neg h2, if_neg h2, if_neg h4]
    · rw [if_neg h1, lookupA_cons, lookupA_cons]
      by_cases h2 : k' = k
      · have h3 : ¬ key = k := fun e => h1 (h2.trans e.symm)
        rw [if_pos h2, if_neg h3, if_pos h2]
      · rw [if_neg h2, if_neg h2, ih]

theorem SetPolicy_virtual_port (cfg : RsCfg) (pol : Policy) :
    (SetPolicy cfg pol).virtual.port = cfg.virtual.port := rfl

theorem AddRuleToPolicy_virtual_port (cfg : RsCfg) (n p : String)
    (rules : List RouteRule) :
    (AddRuleToPolicy cfg n p rules).virtual.port = cfg.virtual.port := by
  unfold AddRuleToPolicy
  cases FindPolicy cfg PolicyControlForward <;> rfl

theorem prepareBackends_virtual_port {route : Route} {sp : Nat} :
    ∀ (bs : List String) (cfg cfg' : RsCfg),
      prepareBackends route sp bs cfg = some cfg' →
      cfg'.virtual.port = cfg.virtual.port := by
  intro bs
  induction bs with
  | nil =>
    intro cfg cfg' h
    unfold prepareBackends at h
    injection h with h
    rw [← h]
  | cons b rest ih =>
    intro cfg cfg' h
    unfold prepareBackends at h
    dsimp only at h
    by_cases hc : ¬ isPassthroughRoute route = true ∧ ¬ IsRouteABDeployment route = true
    · rw [if_pos hc] at h
      cases hr : prepareRouteLTMRules route (formatPoolName route.ns b sp "")
          cfg.virtual.allowSourceRange with
      | none => rw [hr] at h; cases h
      | some rules =>
        rw [hr] at h
        have h2 := ih _ _ h
        rw [h2, AddRuleToPolicy_virtual_port]
    · rw [if_neg hc] at h
      have h2 := ih _ _ h
      rw [h2]

theorem prepareResourceConfigFromRoute_virtual_port {cfg cfg' : RsCfg}
    {route : Route} {sp : Nat} {ps : PortStruct}
    (h : prepareResourceConfigFromRoute cfg route sp ps = some cfg') :
    cfg'.virtual.port = cfg.virtual.port := by
  unfold prepareResourceConfigFromRoute at h
  split at h
  · injection h with h; rw [← h]
  · have h2 := prepareBackends_virtual_port _ _ _ h
    rw [h2]

theorem updateDataGroup_virtual (cfg : RsCfg) (a b c : String) :
    (cfg.updateDataGroup a b c).virtual = cfg.virtual := rfl

theorem foldl_virtual_eq {α : Type} (f : RsCfg → α → RsCfg)
    (hf : ∀ c a, (f c a).virtual = c.virtual) :
    ∀ (l : List α) (c : RsCfg), (l.foldl f c).virtual = c.virtual := by
  intro l
  induction l with
  | nil => intro c; rfl
  | cons a rest ih =>
    intro c
    rw [List.foldl_cons, ih, hf]

theorem updateDataGroupOfDgName_virtual (cfg : RsCfg)
    (refs : List (String × String)) (a b c : String) :
    (cfg.updateDataGroupOfDgName refs a b c).virtual = cfg.virtual := by
  unfold RsCfg.updateDataGroupOfDgName
  refine foldl_virtual_eq _ ?_ refs cfg
  intro cc p
  rfl

theorem addIRule_virtual (cfg : RsCfg) (n p r : String) :
    (cfg.addIRule n p r).virtual = cfg.virtual := by
  unfold RsCfg.addIRule
  split <;> rfl

theorem addInternalDataGroup_virtual (cfg : RsCfg) (n : String) :
    (cfg.addInternalDataGroup n).virtual = cfg.virtual := by
  unfold RsCfg.addInternalDataGroup
  split <;> rfl

theorem addIRuleRef_port (v : VirtualM) (r : String) :
    (v.addIRuleRef r).port = v.port := by
  unfold VirtualM.addIRuleRef
  split <;> rfl

theorem addOrUpdateProfile_port (v : VirtualM) (p : ProfileRef) :
    (v.addOrUpdateProfile p).port = v.port := rfl

theorem handleDataGroupIRules_port (cfg : RsCfg) (vsHost t : String) :
    (handleDataGroupIRules cfg vsHost t).virtual.port = cfg.virtual.port := by
  unfold handleDataGroupIRules
  by_cases h1 : t ≠ ""
  · rw [if_pos h1]
    dsimp only
    by_cases h2 : t = TLSEdge
    · rw [if_pos h2]
      by_cases h3 : vsHost ≠ ""
      · rw [if_pos h3]
        dsimp only
        rw [addIRuleRef_port, addInternalDataGroup_virtual, addInternalDataGroup_virtual,
          addIRule_virtual]
      · rw [if_neg h3]
        rw [addInternalDataGroup_virtual, addInternalDataGroup_virtual, addIRule_virtual]
    · rw [if_neg h2]
      by_cases h4 : t = TLSReencrypt
      · rw [if_pos h4]
        by_cases h3 : vsHost ≠ ""
        · rw [if_pos h3]
          dsimp only
          rw [addIRuleRef_port, addInternalDataGroup_virtual, addInternalDataGroup_virtual,
            addIRule_virtual]
        · rw [if_neg h3]
          rw [addInternalDataGroup_virtual, addInternalDataGroup_virtual, addIRule_virtual]
      · rw [if_neg h4]
        by_cases h3 : vsHost ≠ ""
        · rw [if_pos h3]
          dsimp only
          rw [addIRuleRef_port]
        · rw [if_neg h3]
  · rw [if_neg h1]

theorem handleTLSProfileStep_port {cfg : RsCfg} {ctx : TLSContext} {cfg' : RsCfg}
    (h : handleTLSProfileStep cfg ctx = some cfg') :
    cfg'.virtual.port = cfg.virtual.port := by
  unfold handleTLSProfileStep at h
  dsimp only at h
  split at h
  · injection h with h
    rw [← h]
    split <;> split <;> simp [addOrUpdateProfile_port]
  · split at h
    · split at h
      · cases h
      · split at h
        · cases h
        · injection h with h
          rw [← h]
    · split at h
      · split at h
        · cases h
        · split at h
          · cases h
          · split at h
            · injection h with h
              rw [← h]
              split <;> rfl
            · injection h with h
              rw [← h]
              split <;> rfl
      · cases h

theorem handleTLS_port (cfg : RsCfg) (ctx : TLSContext) :
    (handleTLS cfg ctx).2.virtual.port = cfg.virtual.port := by
  unfold handleTLS
  by_cases h1 : cfg.virtual.port = ctx.httpsPort
  · rw [if_pos h1]
    by_cases h2 : ctx.termination = TLSPassthrough
    · rw [if_pos h2]
    · rw [if_neg h2]
      cases hs : handleTLSProfileStep cfg ctx with
      | none => rfl
      | some cfg1 =>
        dsimp only
        have hport1 : cfg1.virtual.port = cfg.virtual.port := handleTLSProfileStep_port hs
        have hfold : ∀ (c : RsCfg),
            ((ctx.poolPathRefs.foldl (fun c ppr =>
              if ctx.termination = TLSEdge then
                c.updateDataGroup (getRSCfgResName c.virtual.name EdgeServerSslDgName)
                  (trimTrailingSlash (ctx.hostname ++ ppr.1)) "false"
              else if ctx.termination = TLSReencrypt ∧ ctx.bigIPSSLProfiles.serverSSL ≠ "" then
                c.updateDataGroup (getRSCfgResName c.virtual.name ReencryptServerSslDgName)
                  (trimTrailingSlash (ctx.hostname ++ ppr.1))
                  (AS3NameFormatter ("crd_" ++ ctx.ipAddress ++ "_tls_client"))
              else c) c)).virtual = c.virtual := by
          intro c
          refine foldl_virtual_eq _ ?_ ctx.poolPathRefs c
          intro cc p
          split
          · rfl
          · split <;> rfl
        by_cases h3 : ctx.termination = TLSReencrypt
        · rw [if_pos h3]
      
          by_cases h4 : ctx.httpTraffic = TLSAllowInsecure
          · rw [if_pos h4]
            dsimp only
            rw [hfold, hport1]
          · rw [if_neg h4]
            dsimp only
            rw [handleDataGroupIRules_port, updateDataGroupOfDgName_virtual, hfold, hport1]
        · rw [if_neg h3]
          by_cases h5 : ctx.termination = TLSEdge
          · rw [if_pos h5]
            dsimp only
            rw [handleDataGroupIRules_port, updateDataGroupOfDgName_virtual, hfold, hport1]
          · rw [if_neg h5]
            dsimp only
            rw [handleDataGroupIRules_port, hfold, hport1]
  · rw [if_neg h1]
    by_cases h6 : ctx.httpTraffic ≠ ""
    · rw [if_pos h6]
      by_cases h7 : ctx.httpTraffic = TLSRedirectInsecure
      · rw [if_pos h7]
        dsimp only
        by_cases h8 : ctx.hostname = ""
        · rw [if_pos h8, if_pos h8]
          rw [updateDataGroupOfDgName_virtual]
          dsimp only
          rw [addIRuleRef_port, addIRule_virtual]
        · rw [if_neg h8, if_neg h8]
          rw [updateDataGroupOfDgName_virtual]
          dsimp only
          rw [addIRuleRef_port, addIRule_virtual]
      · rw [if_neg h7]
    · rw [if_neg h6]

theorem handleRouteTLS_port (cfg : RsCfg) (route : Route)
    (extd : ExtendedRouteGroupSpec) (sp : Nat) :
    (handleRouteTLS cfg route extd sp).2.virtual.port = cfg.virtual.port := by
  unfold handleRouteTLS
  cases route.tls with
  | none => rfl
  | some t =>
    dsimp only
    rw [handleTLS_port]

theorem handleTLS_reencrypt_allow_false (cfg : RsCfg) (ctx : TLSContext)
    (hport : cfg.virtual.port = ctx.httpsPort)
    (hterm : ctx.termination = TLSReencrypt)
    (hpol : ctx.httpTraffic = TLSAllowInsecure) :
    (handleTLS cfg ctx).1 = false := by
  unfold handleTLS
  rw [if_pos hport]
  have hpass : ¬ ctx.termination = TLSPassthrough := by rw [hterm]; decide
  rw [if_neg hpass]
  cases hs : handleTLSProfileStep cfg ctx with
  | none => rfl
  | some cfg1 =>
    dsimp only
    rw [if_pos hterm, if_pos hpol]

theorem handleRouteTLS_reencrypt_allow_false (cfg : RsCfg) (rt : Route)
    (extd : ExtendedRouteGroupSpec) (sp : Nat) (t : RouteTLS)
    (hport : cfg.virtual.port = DEFAULT_HTTPS_PORT)
    (htls : rt.tls = some t)
    (hterm : t.termination = TLSReencrypt)
    (hpol : strToLower t.insecurePolicy = TLSAllowInsecure) :
    (handleRouteTLS cfg rt extd sp).1 = false := by
  unfold handleRouteTLS
  rw [htls]
  dsimp only
  exact handleTLS_reencrypt_allow_false _ _ hport hterm hpol

theorem buildCfgForRoutes_fails (extd : ExtendedRouteGroupSpec) (ps : PortStruct)
    (bad : Route) (t : RouteTLS)
    (htls : bad.tls = some t) (hterm : t.termination = TLSReencrypt)
    (hpol : strToLower t.insecurePolicy = TLSAllowInsecure) :
    ∀ (routes : List Route) (cfg : RsCfg), bad ∈ routes →
      cfg.virtual.port = DEFAULT_HTTPS_PORT →
      buildCfgForRoutes extd ps routes cfg = none := by
  intro routes
  induction routes with
  | nil => intro cfg h; intro _; cases h
  | cons rt rest ih =>
    intro cfg hmem hport
    unfold buildCfgForRoutes
    cases hprep : prepareResourceConfigFromRoute cfg rt rt.svcPort ps with
    | none => rfl
    | some cfg1 =>
      dsimp only
      have hport1 : cfg1.virtual.port = DEFAULT_HTTPS_PORT := by
        rw [prepareResourceConfigFromRoute_virtual_port hprep, hport]
      rcases List.mem_cons.mp hmem with hbad | hbad
      · have htls' : rt.tls = some t := hbad ▸ htls
        have hsec : isSecureRoute rt = true := by
          unfold isSecureRoute
          rw [htls']
          rfl
        rw [if_pos hsec]
        have hfalse : (handleRouteTLS cfg1 rt extd rt.svcPort).1 = false :=
          handleRouteTLS_reencrypt_allow_false cfg1 rt extd rt.svcPort t hport1 htls' hterm hpol
        simp [hfalse]
      · by_cases hsec : isSecureRoute rt = true
        · rw [if_pos hsec]
          by_cases hr : (handleRouteTLS cfg1 rt extd rt.svcPort).1 = true
          · rw [if_pos hr]
            refine ih _ hbad ?_
            rw [handleRouteTLS_port]
            exact hport1
          · rw [if_neg hr]
        · rw [if_neg hsec]
          exact ih _ hbad hport1

theorem processPorts_abort (extd : ExtendedRouteGroupSpec) (partition : String)
    (routes : List Route)
    (hhttp : doRoutesHandleHTTP routes = true)
    (hfail : ∀ cfg : RsCfg, cfg.virtual.port = DEFAULT_HTTPS_PORT →
      buildCfgForRoutes extd ⟨"https", DEFAULT_HTTPS_PORT⟩ routes cfg = none)
    (ltm : LTMConfigM) (vsMap : ResourceMapM) :
    (processPorts extd partition routes getBasicVirtualPorts ltm vsMap).1 = ltm
      ∧ (processPorts extd partition routes getBasicVirtualPorts ltm vsMap).2.2 = true := by
  have hc1 : ¬ ((PortStruct.mk "http" DEFAULT_HTTP_PORT).protocol = "http"
      ∧ ¬ doRoutesHandleHTTP routes = true) := by
    rintro ⟨-, hno⟩
    exact hno hhttp
  have hc2 : ¬ ((PortStruct.mk "https" DEFAULT_HTTPS_PORT).protocol = "http"
      ∧ ¬ doRoutesHandleHTTP routes = true) := by
    rintro ⟨hp, -⟩
    exact absurd hp (by decide)
  show (processPorts extd partition routes
      (⟨"http", DEFAULT_HTTP_PORT⟩ :: [⟨"https", DEFAULT_HTTPS_PORT⟩]) ltm vsMap).1 = ltm
    ∧ (processPorts extd partition routes
      (⟨"http", DEFAULT_HTTP_PORT⟩ :: [⟨"https", DEFAULT_HTTPS_PORT⟩]) ltm vsMap).2.2 = true
  unfold processPorts
  rw [if_neg hc1]
  dsimp only
  cases hb : buildCfgForRoutes extd ⟨"http", DEFAULT_HTTP_PORT⟩ routes
      (handleRouteGroupExtendedSpec
        (freshRsCfg partition
          (frameRouteVSName extd.vserverName extd.vserverAddr ⟨"http", DEFAULT_HTTP_PORT⟩)
          ⟨"http", DEFAULT_HTTP_PORT⟩ extd) extd) with
  | none => exact ⟨rfl, rfl⟩
  | some cfg1 =>
    dsimp only
    unfold processPorts
    rw [if_neg hc2]
    dsimp only
    have hport0 : (handleRouteGroupExtendedSpec
        (freshRsCfg partition
          (frameRouteVSName extd.vserverName extd.vserverAddr ⟨"https", DEFAULT_HTTPS_PORT⟩)
          ⟨"https", DEFAULT_HTTPS_PORT⟩ extd) extd).virtual.port = DEFAULT_HTTPS_PORT := rfl
    rw [hfail _ hport0]
    exact ⟨rfl, rfl⟩

/-- C4: For every TLS-secured route with reencrypt termination whose
insecure-traffic policy is Allow that belongs to a processed route group,
handleTLS on the HTTPS-port config reports failure (returns false), the
group build aborts with a processing error, and the LTM config store is
left exactly as it was: nothing for that group is committed. -/
theorem processRoutes_reencrypt_allow_aborts
    (st : CtlrState) (routeGroup : String) (entry : extendedParsedSpec)
    (extd : ExtendedRouteGroupSpec) (bad : Route) (t : RouteTLS)
    (hentry : lookupA st.extdSpecMap routeGroup = some entry)
    (hspec : getExtendedRouteSpec st.extdSpecMap routeGroup = some extd)
    (hbad : bad ∈ (getGroupedRoutesGo extd st.routesByNs entry.namespaces st.hostPathMap).1)
    (htls : bad.tls = some t)
    (hterm : t.termination = TLSReencrypt)
    (hpol : t.insecurePolicy = "Allow") :
    (∀ cfg : RsCfg, cfg.virtual.port = DEFAULT_HTTPS_PORT →
        (handleRouteTLS cfg bad extd bad.svcPort).1 = false)
      ∧ (processRoutes st routeGroup false).processingError = true
      ∧ (processRoutes st routeGroup false).state.ltmConfig = st.ltmConfig := by
  have hlow : strToLower t.insecurePolicy = TLSAllowInsecure := by
    rw [hpol]
    decide
  have hfalse : ∀ cfg : RsCfg, cfg.virtual.port = DEFAULT_HTTPS_PORT →
      (handleRouteTLS cfg bad extd bad.svcPort).1 = false :=
    fun cfg hp => handleRouteTLS_reencrypt_allow_false cfg bad extd bad.svcPort t hp htls hterm hlow
  refine ⟨hfalse, ?_⟩
  have hne : ¬ (false = true
      ∨ (getGroupedRoutesGo extd st.routesByNs entry.namespaces st.hostPathMap).1.isEmpty = true) := by
    rintro (h | h)
    · cases h
    · rw [List.isEmpty_iff.mp h] at hbad
      cases hbad
  have hsecb : (getGroupedRoutesGo extd st.routesByNs entry.namespaces st.hostPathMap).1.any
      isSecureRoute = true := by
    refine List.any_eq_true.mpr ⟨bad, hbad, ?_⟩
    unfold isSecureRoute
    rw [htls]
    rfl
  have hports : getVirtualPortsForRoutes
      (getGroupedRoutesGo extd st.routesByNs entry.namespaces st.hostPathMap).1
        = getBasicVirtualPorts := by
    unfold getVirtualPortsForRoutes
    rw [if_pos hsecb]
  have hhttp : doRoutesHandleHTTP
      (getGroupedRoutesGo extd st.routesByNs entry.namespaces st.hostPathMap).1 = true := by
    refine List.any_eq_true.mpr ⟨bad, hbad, ?_⟩
    simp [htls, hpol]
  have hfail2 : ∀ cfg : RsCfg, cfg.virtual.port = DEFAULT_HTTPS_PORT →
      buildCfgForRoutes extd ⟨"https", DEFAULT_HTTPS_PORT⟩
        (getGroupedRoutesGo extd st.routesByNs entry.namespaces st.hostPathMap).1 cfg = none :=
    fun cfg hp =>
      buildCfgForRoutes_fails extd ⟨"https", DEFAULT_HTTPS_PORT⟩ bad t htls hterm hlow
        (getGroupedRoutesGo extd st.routesByNs entry.namespaces st.hostPathMap).1 cfg hbad hp
  have habort := processPorts_abort extd entry.partition
    (getGroupedRoutesGo extd st.routesByNs entry.namespaces st.hostPathMap).1
    hhttp hfail2 st.ltmConfig []
  unfold processRoutes
  rw [hentry]
  dsimp only
  rw [hspec]
  dsimp only
  rw [if_neg hne]
  dsimp only
  rw [hports, habort.2]
  refine ⟨rfl, ?_⟩
  rw [if_pos rfl]
  exact habort.1

/-- The TLS block of the C4 witness route: reencrypt with insecure policy
Allow. -/
def c4tls : RouteTLS :=
  { termination := "reencrypt"
    insecurePolicy := "Allow"
    key := ""
    certificate := ""
    caCertificate := ""
    destinationCACertificate := "" }

def c4route : Route :=
  { mkRoute "ns1" "sec.com" "/" 3 with tls := some c4tls }

def c4entry : extendedParsedSpec :=
  { override := false
    localSpec := none
    globalSpec := some extdSpec0
    namespaces := ["ns1"]
    partition := "test" }

def c4state : CtlrState :=
  { extdSpecMap := [("g", c4entry)]
    routesByNs := [("ns1", [c4route])]
    hostPathMap := []
    ltmConfig := [] }

/-- Witness for C4 at a concrete state: a single reencrypt/Allow route in
the group; handleTLS fails on every HTTPS-port config, the build reports a
processing error and the config store is untouched. -/
theorem processRoutes_reencrypt_allow_aborts_witness :
    lookupA c4state.extdSpecMap "g" = some c4entry
      ∧ getExtendedRouteSpec c4state.extdSpecMap "g" = some extdSpec0
      ∧ c4route ∈ (getGroupedRoutesGo extdSpec0 c4state.routesByNs
          c4entry.namespaces c4state.hostPathMap).1
      ∧ ((∀ cfg : RsCfg, cfg.virtual.port = DEFAULT_HTTPS_PORT →
            (handleRouteTLS cfg c4route extdSpec0 c4route.svcPort).1 = false)
          ∧ (processRoutes c4state "g" false).processingError = true
          ∧ (processRoutes c4state "g" false).state.ltmConfig = c4state.ltmConfig) :=
  ⟨by decide, by decide, by decide,
   processRoutes_reencrypt_allow_aborts c4state "g" c4entry extdSpec0 c4route c4tls
     (by decide) (by decide) (by decide) (by decide) (by decide) (by decide)⟩

theorem getVirtualServerM_delete_sub (ltm : LTMConfigM) (part name p n : String)
    (cfg : RsCfg)
    (h : getVirtualServerM (deleteVirtualServerM ltm part name) p n = some cfg) :
    getVirtualServerM ltm p n = some cfg := by
  unfold deleteVirtualServerM at h
  unfold getVirtualServerM at h ⊢
  rw [lookupA_insertA] at h
  by_cases hp : part = p
  · rw [if_pos hp] at h
    dsimp only at h
    rw [lookupA_eraseA] at h
    by_cases hn : name = n
    · rw [if_pos hn] at h
      cases h
    · rw [if_neg hn] at h
      subst hp
      cases hl : lookupA ltm part with
      | none =>
        rw [hl] at h
        cases h
      | some pm =>
        rw [hl] at h
        exact h
  · rw [if_neg hp] at h
    exact h

theorem processPorts_no_commit (extd : ExtendedRouteGroupSpec) (partition : String)
    (routes : List Route) :
    ∀ (ports : List PortStruct) (ltm : LTMConfigM) (vsMap : ResourceMapM)
      (p n : String) (cfg : RsCfg),
      getVirtualServerM (processPorts extd partition routes ports ltm vsMap).1 p n = some cfg →
      getVirtualServerM ltm p n = some cfg := by
  intro ports
  induction ports with
  | nil => intro ltm vsMap p n cfg h; exact h
  | cons ps rest ih =>
    intro ltm vsMap p n cfg h
    unfold processPorts at h
    dsimp only at h
    by_cases hc : ps.protocol = "http" ∧ ¬ doRoutesHandleHTTP routes = true
    · rw [if_pos hc] at h
      exact getVirtualServerM_delete_sub _ _ _ _ _ _ (ih _ _ _ _ _ h)
    · rw [if_neg hc] at h
      cases hb : buildCfgForRoutes extd ps routes
          (handleRouteGroupExtendedSpec
            (freshRsCfg partition
              (frameRouteVSName extd.vserverName extd.vserverAddr ps) ps extd) extd) with
      | none =>
        rw [hb] at h
        exact h
      | some cfg1 =>
        rw [hb] at h
        dsimp only at h
        exact ih _ _ _ _ _ h

/-- C3 (amended): when any route of the group fails processing, the build
loop commits nothing it built — every virtual server present in the store
afterwards was already there with the same config — but the error is NOT
surfaced: processRoutes returns nil (err = none), so the event is not
marked retryable; and the store is not necessarily unchanged, because the
HTTP virtual may have been deleted before the error (see the
counterexample). -/
theorem processRoutes_failure_commits_nothing
    (st : CtlrState) (routeGroup : String) (triggerDelete : Bool)
    (hfail : (processRoutes st routeGroup triggerDelete).processingError = true) :
    (processRoutes st routeGroup triggerDelete).err = none
      ∧ ∀ (p n : String) (cfg : RsCfg),
          getVirtualServerM (processRoutes st routeGroup triggerDelete).state.ltmConfig p n
              = some cfg →
          getVirtualServerM st.ltmConfig p n = some cfg := by
  unfold processRoutes at hfail ⊢
  cases he : lookupA st.extdSpecMap routeGroup with
  | none =>
    rw [he] at hfail
    simp at hfail
  | some entry =>
    rw [he] at hfail
    dsimp only at hfail ⊢
    cases hs : getExtendedRouteSpec st.extdSpecMap routeGroup with
    | none =>
      rw [hs] at hfail
      simp at hfail
    | some extd =>
      rw [hs] at hfail
      dsimp only at hfail ⊢
      by_cases hcond : (triggerDelete = true
          ∨ (getGroupedRoutesGo extd st.routesByNs entry.namespaces
              st.hostPathMap).1.isEmpty = true)
      · rw [if_pos hcond] at hfail
        simp at hfail
      · rw [if_neg hcond] at hfail ⊢
        dsimp only at hfail ⊢
        refine ⟨rfl, ?_⟩
        intro p n cfg h
        rw [hfail] at h
        rw [if_pos rfl] at h
        exact processPorts_no_commit extd entry.partition _ _ _ _ p n cfg h

/-- The TLS block of the C3 route: edge-terminated, insecure traffic
disabled, inline key and certificate. -/
def c3tls : RouteTLS :=
  { termination := "edge"
    insecurePolicy := "None"
    key := "k"
    certificate := "crt"
    caCertificate := ""
    destinationCACertificate := "" }

/-- The C3 route: its client-SSL profile synthesis fails. -/
def c3route : Route :=
  { mkRoute "ns1" "sec.com" "/" 3 with tls := some c3tls, profileCreateOk := false }

def c3httpName : String :=
  frameRouteVSName "vs" "10.0.0.1" ⟨"http", DEFAULT_HTTP_PORT⟩

/-- A pre-existing HTTP virtual in the store before the failing build. -/
def c3httpCfg : RsCfg :=
  freshRsCfg "test" c3httpName ⟨"http", DEFAULT_HTTP_PORT⟩ extdSpec0

def c3entry : extendedParsedSpec :=
  { override := false
    localSpec := none
    globalSpec := some extdSpec0
    namespaces := ["ns1"]
    partition := "test" }

def c3state : CtlrState :=
  { extdSpecMap := [("g", c3entry)]
    routesByNs := [("ns1", [c3route])]
    hostPathMap := []
    ltmConfig := [("test", [(c3httpName, c3httpCfg)])] }

/-- C3 counterexample: a group whose only route is edge-terminated with
insecure traffic disabled and a failing profile synthesis.  The build
fails (processingError), yet the pre-existing HTTP virtual was deleted
from the store before the failure, and processRoutes returns err = none,
so the event is not marked retryable — refuting both "the store's
per-partition resource map is unchanged" and "the error is surfaced to
the caller". -/
theorem processRoutes_failure_deletes_http_and_swallows_error :
    (processRoutes c3state "g" false).processingError = true
      ∧ (processRoutes c3state "g" false).err = none
      ∧ getVirtualServerM c3state.ltmConfig "test" c3httpName = some c3httpCfg
      ∧ getVirtualServerM (processRoutes c3state "g" false).state.ltmConfig
          "test" c3httpName = none := by
  decide

/-- Witness for C3 at the same concrete state: the build fails, the error
is swallowed, and every config still present afterwards was already in
the store unchanged. -/
theorem processRoutes_failure_commits_nothing_witness :
    (processRoutes c3state "g" false).processingError = true
      ∧ ((processRoutes c3state "g" false).err = none
        ∧ ∀ (p n : String) (cfg : RsCfg),
            getVirtualServerM (processRoutes c3state "g" false).state.ltmConfig p n
                = some cfg →
            getVirtualServerM c3state.ltmConfig p n = some cfg) :=
  ⟨by decide, processRoutes_failure_commits_nothing c3state "g" false (by decide)⟩

/-! ## Publish gating (postResourceConfigRequest) -/

/-- The publish-relevant slice of `ResourceStore`: the live LTM and DNS
configs and the two last-published snapshot caches. -/
structure ResourceStoreM where
  ltmConfig : LTMConfigM
  ltmConfigCache : LTMConfigM
  dnsConfig : List (String × String)
  dnsConfigCache : List (String × String)
deriving DecidableEq

/-- `getLTMConfigCopy`: an entry-for-entry reference copy of the
two-level LTM map; on the association-list embedding the copy has the
same entries as the original. -/
def getLTMConfigCopy (rs : ResourceStoreM) : LTMConfigM := rs.ltmConfig

/-- `getGTMConfigCopy`, exactly as the source has it: it allocates a
fresh empty `dnsConfig` map, but the copy loop writes the live entries
into `rs.dnsConfigCache` instead of the fresh map, which is returned
still empty.  The pair is (returned map, store after the side effect). -/
def getGTMConfigCopy (rs : ResourceStoreM) :
    List (String × String) × ResourceStoreM :=
  ([],
   { rs with dnsConfigCache :=
      rs.dnsConfig.foldl (fun c p => insertA c p.1 p.2) rs.dnsConfigCache })

/-- `updateCaches`: the LTM cache becomes a copy of the live LTM config;
the DNS cache becomes whatever `getGTMConfigCopy` returns (its side
effect on the old cache value is immediately overwritten). -/
def updateCaches (rs : ResourceStoreM) : ResourceStoreM :=
  let rs1 := { rs with ltmConfigCache := getLTMConfigCopy rs }
  let g := getGTMConfigCopy rs1
  { g.2 with dnsConfigCache := g.1 }

/-- `reflect.DeepEqual` on a flat map: same key set, equal values. -/
def mapEqvA (m1 m2 : List (String × String)) : Bool :=
  m1.all (fun p => decide (lookupA m2 p.1 = some p.2))
    && m2.all (fun p => decide (lookupA m1 p.1 = some p.2))

/-- `reflect.DeepEqual` on the two-level LTM map. -/
def rsMapEqvA (m1 m2 : ResourceMapM) : Bool :=
  m1.all (fun p => decide (lookupA m2 p.1 = some p.2))
    && m2.all (fun p => decide (lookupA m1 p.1 = some p.2))

def ltmEqvA (m1 m2 : LTMConfigM) : Bool :=
  m1.all (fun p => match lookupA m2 p.1 with
    | some pm => rsMapEqvA p.2 pm
    | none => false)
    && m2.all (fun p => match lookupA m1 p.1 with
      | some pm => rsMapEqvA p.2 pm
      | none => false)

/-- `isConfigUpdated`: the live config differs (DeepEqual) from the
last-published snapshot caches. -/
def isConfigUpdated (rs : ResourceStoreM) : Bool :=
  !(ltmEqvA rs.ltmConfig rs.ltmConfigCache) || !(mapEqvA rs.dnsConfig rs.dnsConfigCache)

/-- `postResourceConfigRequest`: when the config is updated, build the
request (LTM copy + the value `getGTMConfigCopy` returns, with its side
effect on the store), hand it to the agent (the returned payload), then
`updateCaches`; otherwise nothing. -/
def postResourceConfigRequest (rs : ResourceStoreM) :
    Option (LTMConfigM × List (String × String)) × ResourceStoreM :=
  if isConfigUpdated rs then
    let g := getGTMConfigCopy rs
    (some (getLTMConfigCopy g.2, g.1), updateCaches g.2)
  else (none, rs)

/-- The tail of `processNativeResource`: the publish check runs only when
the event queue is empty after draining the event. -/
def processNativeResourceTail (queueLen : Nat) (rs : ResourceStoreM) :
    Option (LTMConfigM × List (String × String)) × ResourceStoreM :=
  if queueLen = 0 then postResourceConfigRequest rs else (none, rs)

/-- A store holding one WideIP and empty snapshot caches. -/
def c5store : ResourceStoreM :=
  { ltmConfig := []
    ltmConfigCache := []
    dnsConfig := [("example.com", "wideip1")]
    dnsConfigCache := [] }

/-- C5: the publish check fires only on an empty queue with a changed
config, but the snapshot caches are NOT updated to the just-published
configuration: `getGTMConfigCopy` returns an empty map (the copy loop
writes into `dnsConfigCache` instead, and `updateCaches` then overwrites
that cache with the empty return value), so the published GTM config is
empty, the DNS cache ends empty, an immediately repeated publish check
with unchanged configuration publishes again, and it does so on every
empty-queue drain thereafter; a non-empty queue suppresses the check, and
a store whose caches match publishes nothing. -/
theorem postResourceConfigRequest_republishes_unchanged_config :
    isConfigUpdated c5store = true
      ∧ (postResourceConfigRequest c5store).1 = some ([], [])
      ∧ (postResourceConfigRequest c5store).2.dnsConfigCache = []
      ∧ (postResourceConfigRequest c5store).2.dnsConfig = c5store.dnsConfig
      ∧ isConfigUpdated (postResourceConfigRequest c5store).2 = true
      ∧ (processNativeResourceTail 0 (postResourceConfigRequest c5store).2).1
          = some ([], [])
      ∧ (processNativeResourceTail 1 (postResourceConfigRequest c5store).2).1 = none
      ∧ (postResourceConfigRequest
          { ltmConfig := [], ltmConfigCache := [], dnsConfig := [], dnsConfigCache := [] }).1
            = none :=
  ⟨by decide, by decide, by decide, by decide, by decide, by decide, by decide, by decide⟩

/-! ## Extended-configmap diffing (getOperationalExtendedConfigMapSpecs) -/

/-- `spec.global.VServerName`.  (The Go code dereferences `global`
without a nil check; the specs this diff sees are parsed entries whose
global block is always populated, so the nil arm is unreachable there
and read as "" here.) -/
def globalVServerName (e : extendedParsedSpec) : String :=
  match e.globalSpec with
  | some g => g.vserverName
  | none => ""

/-- `spec.global.Meta.DependsOnTLSCipher`, same nil reading. -/
def globalCipherFlag (e : extendedParsedSpec) : Bool :=
  match e.globalSpec with
  | some g => g.metaDependsOnTLSCipher
  | none => false

/-- Loop 1, deleted arm: cached keys absent from the new map. -/
def deletedSpecsOf (cachedMap newMap : extendedSpecMap) : List String :=
  (cachedMap.filter (fun p => (lookupA newMap p.1).isNone)).map Prod.fst

/-- Loop 1, modified arm: present in both, DeepEqual differs, and an
identity field (global virtual-server name, override, partition)
differs. -/
def modifiedSpecsOf (cachedMap newMap : extendedSpecMap) : List String :=
  (cachedMap.filter (fun p =>
    match lookupA newMap p.1 with
    | some ns => decide (¬ p.2 = ns)
        && (decide (¬ globalVServerName p.2 = globalVServerName ns)
            || decide (¬ p.2.override = ns.override)
            || decide (¬ p.2.partition = ns.partition))
    | none => false)).map Prod.fst

/-- Loop 1, updated arm (also the keys recorded in `updateMap`): present
in both, DeepEqual differs, all identity fields equal. -/
def updatedSpecsLoop1 (cachedMap newMap : extendedSpecMap) : List String :=
  (cachedMap.filter (fun p =>
    match lookupA newMap p.1 with
    | some ns => decide (¬ p.2 = ns)
        && decide (globalVServerName p.2 = globalVServerName ns)
        && decide (p.2.override = ns.override)
        && decide (p.2.partition = ns.partition)
    | none => false)).map Prod.fst

/-- Loop 2: every cached key whose global spec is flagged
cipher-dependent and that loop 1 did not already record in `updateMap`
is appended to the updated list — with no check that the key still
exists in the new map, that anything changed, or that the cipher default
changed. -/
def updatedSpecsOf (cachedMap newMap : extendedSpecMap) : List String :=
  updatedSpecsLoop1 cachedMap newMap
    ++ (cachedMap.filter (fun p =>
        globalCipherFlag p.2
          && !(decide (p.1 ∈ updatedSpecsLoop1 cachedMap newMap)))).map Prod.fst

/-- Loop 3: new keys absent from the cached map. -/
def createdSpecsOf (cachedMap newMap : extendedSpecMap) : List String :=
  (newMap.filter (fun p => (lookupA cachedMap p.1).isNone)).map Prod.fst

/-- `getOperationalExtendedConfigMapSpecs`; Go map iteration order is
arbitrary, so the list order here is a determinization and only
membership is claimed.  On `isDelete` the keys of the NEW map are all
returned as deleted. -/
def getOperationalExtendedConfigMapSpecs (cachedMap newMap : extendedSpecMap)
    (isDelete : Bool) : List String × List String × List String × List String :=
  if isDelete then (newMap.map Prod.fst, [], [], [])
  else (deletedSpecsOf cachedMap newMap, modifiedSpecsOf cachedMap newMap,
        updatedSpecsOf cachedMap newMap, createdSpecsOf cachedMap newMap)

theorem getOperational_false_eq (cachedMap newMap : extendedSpecMap) :
    getOperationalExtendedConfigMapSpecs cachedMap newMap false
      = (deletedSpecsOf cachedMap newMap, modifiedSpecsOf cachedMap newMap,
         updatedSpecsOf cachedMap newMap, createdSpecsOf cachedMap newMap) := rfl

theorem mem_keys_filter {α : Type} (m : List (String × α)) (f : String × α → Bool)
    (k : String) :
    k ∈ (m.filter f).map Prod.fst ↔ ∃ s, (k, s) ∈ m ∧ f (k, s) = true := by
  constructor
  · intro h
    rcases List.mem_map.mp h with ⟨⟨k1, s⟩, hp, rfl⟩
    exact ⟨s, (List.mem_filter.mp hp).1, (List.mem_filter.mp hp).2⟩
  · rintro ⟨s, hm, hf⟩
    exact List.mem_map.mpr ⟨(k, s), List.mem_filter.mpr ⟨hm, hf⟩, rfl⟩

theorem mem_updatedLoop1_iff (cachedMap newMap : extendedSpecMap) (k : String) :
    k ∈ updatedSpecsLoop1 cachedMap newMap
      ↔ ∃ s ns, (k, s) ∈ cachedMap ∧ lookupA newMap k = some ns ∧ ¬ s = ns
          ∧ globalVServerName s = globalVServerName ns ∧ s.override = ns.override
          ∧ s.partition = ns.partition := by
  unfold updatedSpecsLoop1
  rw [mem_keys_filter]
  constructor
  · rintro ⟨s, hm, hf⟩
    dsimp only at hf
    cases hl : lookupA newMap k with
    | none =>
      rw [hl] at hf
      cases hf
    | some ns =>
      rw [hl] at hf
      simp only [Bool.and_eq_true, decide_eq_true_eq] at hf
      exact ⟨s, ns, hm, rfl, hf.1.1.1, hf.1.1.2, hf.1.2, hf.2⟩
  · rintro ⟨s, ns, hm, hl, hne, h1, h2, h3⟩
    refine ⟨s, hm, ?_⟩
    dsimp only
    rw [hl]
    simp [hne, h1, h2, h3]

theorem mem_modified_iff (cachedMap newMap : extendedSpecMap) (k : String) :
    k ∈ modifiedSpecsOf cachedMap newMap
      ↔ ∃ s ns, (k, s) ∈ cachedMap ∧ lookupA newMap k = some ns ∧ ¬ s = ns
          ∧ (¬ globalVServerName s = globalVServerName ns ∨ ¬ s.override = ns.override
              ∨ ¬ s.partition = ns.partition) := by
  unfold modifiedSpecsOf
  rw [mem_keys_filter]
  constructor
  · rintro ⟨s, hm, hf⟩
    dsimp only at hf
    cases hl : lookupA newMap k with
    | none =>
      rw [hl] at hf
      cases hf
    | some ns =>
      rw [hl] at hf
      simp only [Bool.and_eq_true, Bool.or_eq_true, decide_eq_true_eq] at hf
      refine ⟨s, ns, hm, rfl, hf.1, ?_⟩
      rcases hf.2 with (h | h) | h
      · exact Or.inl h
      · exact Or.inr (Or.inl h)
      · exact Or.inr (Or.inr h)
  · rintro ⟨s, ns, hm, hl, hne, hid⟩
    refine ⟨s, hm, ?_⟩
    dsimp only
    rw [hl]
    rcases hid with h | h | h
    · simp [hne, h]
    · simp [hne, h]
    · simp [hne, h]

theorem mem_deleted_iff (cachedMap newMap : extendedSpecMap) (k : String) :
    k ∈ deletedSpecsOf cachedMap newMap
      ↔ ∃ s, (k, s) ∈ cachedMap ∧ lookupA newMap k = none := by
  unfold deletedSpecsOf
  rw [mem_keys_filter]
  constructor
  · rintro ⟨s, hm, hf⟩
    dsimp only at hf
    rw [Option.isNone_iff_eq_none] at hf
    exact ⟨s, hm, hf⟩
  · rintro ⟨s, hm, hl⟩
    refine ⟨s, hm, ?_⟩
    dsimp only
    rw [Option.isNone_iff_eq_none]
    exact hl

theorem mem_created_iff (cachedMap newMap : extendedSpecMap) (k : String) :
    k ∈ createdSpecsOf cachedMap newMap
      ↔ ∃ s, (k, s) ∈ newMap ∧ lookupA cachedMap k = none := by
  unfold createdSpecsOf
  rw [mem_keys_filter]
  constructor
  · rintro ⟨s, hm, hf⟩
    dsimp only at hf
    rw [Option.isNone_iff_eq_none] at hf
    exact ⟨s, hm, hf⟩
  · rintro ⟨s, hm, hl⟩
    refine ⟨s, hm, ?_⟩
    dsimp only
    rw [Option.isNone_iff_eq_none]
    exact hl

theorem mem_updated_iff (cachedMap newMap : extendedSpecMap) (k : String) :
    k ∈ updatedSpecsOf cachedMap newMap
      ↔ k ∈ updatedSpecsLoop1 cachedMap newMap
        ∨ ∃ s, (k, s) ∈ cachedMap ∧ globalCipherFlag s = true := by
  unfold updatedSpecsOf
  rw [List.mem_append, mem_keys_filter]
  constructor
  · rintro (h | ⟨s, hm, hf⟩)
    · exact Or.inl h
    · dsimp only at hf
      simp only [Bool.and_eq_true] at hf
      exact Or.inr ⟨s, hm, hf.1⟩
  · rintro (h | ⟨s, hm, hflag⟩)
    · exact Or.inl h
    · by_cases hu : k ∈ updatedSpecsLoop1 cachedMap newMap
      · exact Or.inl hu
      · refine Or.inr ⟨s, hm, ?_⟩
        dsimp only
        rw [Bool.and_eq_true]
        exact ⟨hflag, by simp [hu]⟩

/-- C6 (amended): with isDelete false, a route-group key is listed
deleted iff it is cached and absent from the new map; modified iff
present in both with differing specs and a differing identity field
(global virtual-server name, override flag, partition); updated iff
present in both with differing specs but identical identity fields, OR
its cached global spec is flagged cipher-dependent — unconditionally, so
also for unchanged, modified or even deleted keys, and with no test of
the shared cipher-suite default; created iff present only in the new
map.  The four lists are therefore not a partition. -/
theorem getOperationalExtendedConfigMapSpecs_characterization
    (cachedMap newMap : extendedSpecMap) (k : String) :
    (k ∈ (getOperationalExtendedConfigMapSpecs cachedMap newMap false).1
      ↔ ∃ s, (k, s) ∈ cachedMap ∧ lookupA newMap k = none)
    ∧ (k ∈ (getOperationalExtendedConfigMapSpecs cachedMap newMap false).2.1
      ↔ ∃ s ns, (k, s) ∈ cachedMap ∧ lookupA newMap k = some ns ∧ ¬ s = ns
          ∧ (¬ globalVServerName s = globalVServerName ns ∨ ¬ s.override = ns.override
              ∨ ¬ s.partition = ns.partition))
    ∧ (k ∈ (getOperationalExtendedConfigMapSpecs cachedMap newMap false).2.2.1
      ↔ (∃ s ns, (k, s) ∈ cachedMap ∧ lookupA newMap k = some ns ∧ ¬ s = ns
            ∧ globalVServerName s = globalVServerName ns ∧ s.override = ns.override
            ∧ s.partition = ns.partition)
        ∨ ∃ s, (k, s) ∈ cachedMap ∧ globalCipherFlag s = true)
    ∧ (k ∈ (getOperationalExtendedConfigMapSpecs cachedMap newMap false).2.2.2
      ↔ ∃ s, (k, s) ∈ newMap ∧ lookupA cachedMap k = none) := by
  rw [getOperational_false_eq]
  exact ⟨mem_deleted_iff _ _ _, mem_modified_iff _ _ _,
    (mem_updated_iff _ _ _).trans (by rw [mem_updatedLoop1_iff]),
    mem_created_iff _ _ _⟩

/-- A cached entry whose global spec is flagged cipher-dependent. -/
def c6flagged : extendedParsedSpec :=
  { override := false
    localSpec := none
    globalSpec := some { extdSpec0 with metaDependsOnTLSCipher := true }
    namespaces := []
    partition := "test" }

/-- C6 counterexample: a cipher-flagged cached key absent from the new
map lands in BOTH the deleted and the updated lists (so the lists are
not a partition and "updated" does not require presence in both maps);
and with identical cached and new maps — no spec difference and no
cipher-default change modelled anywhere in this function — the key is
still listed as updated. -/
theorem getOperationalExtendedConfigMapSpecs_overlap :
    (getOperationalExtendedConfigMapSpecs [("g", c6flagged)] [] false).1 = ["g"]
      ∧ (getOperationalExtendedConfigMapSpecs [("g", c6flagged)] [] false).2.2.1 = ["g"]
      ∧ (getOperationalExtendedConfigMapSpecs [("g", c6flagged)]
          [("g", c6flagged)] false).1 = []
      ∧ (getOperationalExtendedConfigMapSpecs [("g", c6flagged)]
          [("g", c6flagged)] false).2.1 = []
      ∧ (getOperationalExtendedConfigMapSpecs [("g", c6flagged)]
          [("g", c6flagged)] false).2.2.1 = ["g"] := by
  decide
